import Mathlib

/-!
Verification of the context-management pipeline of a minimal coding agent.

The development shallowly embeds the Python sources under `src/agents/`:
message stores are lists of `Message` records, the model endpoint and the
effectful tool bodies are oracle parameters, the filesystem is an
association list, and machine-level concerns (clock, JSON parser) are
explicit parameters.  Each definition mirrors one Python function and keeps
its name where Lean allows it.
-/

set_option maxHeartbeats 1000000

/-- One recorded tool call, as stored verbatim on an assistant message:
`{"id": ..., "type": "function", "function": {"name": ..., "arguments": ...}}`. -/
structure ToolCallRec where
  id : String
  name : String
  arguments : String
deriving DecidableEq

/-- One conversation message.  `tool_call_id` is present exactly on
tool-role messages, `tool_calls` exactly on assistant messages that
request tool execution (mirroring the dict shapes the Python code builds). -/
structure Message where
  role : String
  content : String
  tool_call_id : Option String := none
  tool_calls : Option (List ToolCallRec) := none
deriving DecidableEq

/-- Python `str.strip()`: drop whitespace from both ends. -/
def pyStrip (s : String) : String :=
  String.mk (((s.toList.dropWhile Char.isWhitespace).reverse.dropWhile Char.isWhitespace).reverse)

/-- Python `str.startswith(p)`. -/
def pyStartsWith (s p : String) : Bool :=
  p.toList.isPrefixOf s.toList

/-- Python slice `s[:n]` (by code point, as Python indexes `str`). -/
def pyTruncate (n : Nat) (s : String) : String :=
  String.mk (s.toList.take n)

/-- Retention floor of micro-compaction (`KEEP_RECENT` in s06). -/
def KEEP_RECENT : Nat := 3

/-- Auto-compaction token threshold (`THRESHOLD` in s06). -/
def THRESHOLD : Nat := 5000

/-- Python dict assignment `m[k] = v`: later writes shadow earlier ones. -/
def dictInsert (m : List (String × String)) (k v : String) : List (String × String) :=
  (k, v) :: m.filter (fun e => e.1 ≠ k)

/-- Python `m.get(k, d)`. -/
def dictGet (m : List (String × String)) (k d : String) : String :=
  match m.find? (fun e => e.1 == k) with
  | some e => e.2
  | none => d

/-- Python `enumerate(messages)` starting at `n`. -/
def enumMsgs : Nat → List Message → List (Nat × Message)
  | _, [] => []
  | n, m :: r => (n, m) :: enumMsgs (n + 1) r

/-- s06 `micro_compact`, collection phase: all `(index, message)` pairs whose
role is `"tool"`, in arrival order. -/
def tool_result_indices (messages : List Message) : List (Nat × Message) :=
  (enumMsgs 0 messages).filter (fun p => p.2.role == "tool")

/-- s06 `micro_compact`, map-building phase: `tool_call_id → function name`
from the tool calls recorded on assistant messages (a dict, so a later
entry with the same id wins; falsy ids are skipped, as in the source). -/
def tool_name_map (messages : List Message) : List (String × String) :=
  messages.foldl
    (fun m msg =>
      if msg.role = "assistant" then
        (msg.tool_calls.getD []).foldl
          (fun m tc => if tc.id ≠ "" then dictInsert m tc.id tc.name else m) m
      else m)
    []

/-- The placeholder written by micro-compaction for the tool named `name`. -/
def placeholderText (name : String) : String :=
  "[此前：已使用 " ++ name ++ "]"

/-- Tier 1, `micro_compact` (s06 lines 73-99): if more than `KEEP_RECENT`
tool-role messages exist, every one but the last `KEEP_RECENT` whose content
exceeds 100 characters is rewritten in place to a placeholder naming its
originating tool. -/
def micro_compact (messages : List Message) : List Message :=
  let tri := tool_result_indices messages
  if tri.length ≤ KEEP_RECENT then messages
  else
    let nameMap := tool_name_map messages
    let to_clear := tri.take (tri.length - KEEP_RECENT)
    to_clear.foldl
      (fun ms p =>
        if p.2.content.length > 100 then
          ms.set p.1
            { p.2 with
              content := placeholderText (dictGet nameMap (p.2.tool_call_id.getD "") "unknown") }
        else ms)
      messages

/-- Python `repr` of one character inside a single-quoted string literal
(the cases produced by this program: backslash, quote and the common
control characters are escaped, everything else prints as itself). -/
def pyReprStrChar (c : Char) : String :=
  if c = '\\' then "\\\\"
  else if c = '\x27' then "\\\x27"
  else if c = '\n' then "\\n"
  else if c = '\r' then "\\r"
  else if c = '\t' then "\\t"
  else String.mk [c]

/-- Python `repr` of a string (single-quoted form). -/
def pyReprStr (s : String) : String :=
  "\x27" ++ String.join (s.toList.map pyReprStrChar) ++ "\x27"

/-- Python `str` of one recorded tool-call dict. -/
def pyReprToolCall (tc : ToolCallRec) : String :=
  "\x7b\x27id\x27: " ++ pyReprStr tc.id ++
    ", \x27type\x27: \x27function\x27, \x27function\x27: \x7b\x27name\x27: " ++
    pyReprStr tc.name ++ ", \x27arguments\x27: " ++ pyReprStr tc.arguments ++ "\x7d\x7d"

/-- Python `str` of one message dict, with keys in the insertion order the
agent code uses for each message shape. -/
def pyReprMsg (m : Message) : String :=
  "\x7b\x27role\x27: " ++ pyReprStr m.role ++
    (match m.tool_call_id with
     | some tid => ", \x27tool_call_id\x27: " ++ pyReprStr tid
     | none => "") ++
    ", \x27content\x27: " ++ pyReprStr m.content ++
    (match m.tool_calls with
     | some tcs => ", \x27tool_calls\x27: [" ++ String.intercalate ", " (tcs.map pyReprToolCall) ++ "]"
     | none => "") ++
    "\x7d"

/-- Python `str(messages)` for a message list. -/
def pyReprMessages (msgs : List Message) : String :=
  "[" ++ String.intercalate ", " (msgs.map pyReprMsg) ++ "]"

/-- s06 `estimate_tokens`: `len(str(messages)) // 4`. -/
def estimate_tokens (messages : List Message) : Nat :=
  (pyReprMessages messages).length / 4

/-- The filesystem as an association list from path to content (most recent
write first). -/
abbrev FS := List (String × String)

/-- Writing a file with Python `open(path, "w")`: creates the file, or
truncates and overwrites an existing one of the same name. -/
def fsWrite (fs : FS) (name content : String) : FS :=
  (name, content) :: fs.filter (fun e => e.1 ≠ name)

/-- Content of a file, if present. -/
def fsLookup (fs : FS) (name : String) : Option String :=
  (fs.find? (fun e => e.1 == name)).map (·.2)

/-- The names of all existing files. -/
def fsNames (fs : FS) : List String := fs.map Prod.fst

/-- JSON escaping of one character (`ensure_ascii=False`, so only the
backslash, quote and common control characters are escaped). -/
def jsonEscChar (c : Char) : String :=
  if c = '\\' then "\\\\"
  else if c = '"' then "\\\""
  else if c = '\n' then "\\n"
  else if c = '\r' then "\\r"
  else if c = '\t' then "\\t"
  else String.mk [c]

/-- JSON rendering of a string. -/
def jsonStr (s : String) : String :=
  "\"" ++ String.join (s.toList.map jsonEscChar) ++ "\""

/-- `json.dumps` of one recorded tool call. -/
def jsonToolCall (tc : ToolCallRec) : String :=
  "\x7b\"id\": " ++ jsonStr tc.id ++
    ", \"type\": \"function\", \"function\": \x7b\"name\": " ++ jsonStr tc.name ++
    ", \"arguments\": " ++ jsonStr tc.arguments ++ "\x7d\x7d"

/-- `json.dumps(msg, ensure_ascii=False)` of one message, keys in insertion
order. -/
def jsonMsg (m : Message) : String :=
  "\x7b\"role\": " ++ jsonStr m.role ++
    (match m.tool_call_id with
     | some tid => ", \"tool_call_id\": " ++ jsonStr tid
     | none => "") ++
    ", \"content\": " ++ jsonStr m.content ++
    (match m.tool_calls with
     | some tcs => ", \"tool_calls\": [" ++ String.intercalate ", " (tcs.map jsonToolCall) ++ "]"
     | none => "") ++
    "\x7d"

/-- The transcript file body `auto_compact` writes: one JSON object per
line, one line per message. -/
def jsonlDump (msgs : List Message) : String :=
  String.join (msgs.map (fun m => jsonMsg m ++ "\n"))

/-- Name of the transcript file for clock second `ts`
(`TRANSCRIPT_DIR / f"transcript_{int(time.time())}.jsonl"`). -/
def transcriptPath (ts : Nat) : String :=
  ".transcripts/transcript_" ++ toString ts ++ ".jsonl"

/-- Tier 2, `auto_compact` (s06 lines 103-134): dump the full message list
to the timestamp-named transcript file, obtain a continuity summary from
the model (the external summarization request is the oracle `summarize`),
and return the two-message replacement store. -/
def auto_compact (fs : FS) (ts : Nat) (summarize : List Message → String)
    (messages : List Message) : FS × List Message :=
  let p := transcriptPath ts
  let fs' := fsWrite fs p (jsonlDump messages)
  let summary := pyStrip (summarize messages)
  (fs',
   [{ role := "user", content := "[对话已压缩。笔录：" ++ p ++ "]\n\n" ++ summary },
    { role := "assistant", content := "已了解。我已从总结中获取上下文，继续执行。" }])

/-- Parsed keyword arguments of a tool call: a JSON object whose values
this program reads as strings. -/
abbrev Args := List (String × String)

/-- Python `kw[k]` inside a handler lambda: the value, or a `KeyError`
(whose `str` form is the quoted key) if the argument is missing. -/
def kwGet (args : Args) (k : String) : Except String String :=
  match args.find? (fun e => e.1 == k) with
  | some e => .ok e.2
  | none => .error ("\x27" ++ k ++ "\x27")

/-- Python `kw.get(k)`. -/
def kwGetOpt (args : Args) (k : String) : Option String :=
  (args.find? (fun e => e.1 == k)).map (·.2)

/-- A tool handler: named arguments to either a text result or a raised
exception (modelled as `Except`, carrying `str(e)`). -/
abbrev Handler := Args → Except String String

/-- The `bash` entry of `TOOL_HANDLERS`: `lambda **kw: run_bash(kw["command"])`,
with the effectful `run_bash` body an oracle. -/
def bashLambda (run : String → String) : Handler :=
  fun kw => (kwGet kw "command").map run

/-- The `read_file` entry: `lambda **kw: run_read(kw["path"], kw.get("limit"))`. -/
def readLambda (run : String → Option String → String) : Handler :=
  fun kw => (kwGet kw "path").map (fun p => run p (kwGetOpt kw "limit"))

/-- The `write_file` entry: `lambda **kw: run_write(kw["path"], kw["content"])`. -/
def writeLambda (run : String → String → String) : Handler :=
  fun kw => do
    let p ← kwGet kw "path"
    let c ← kwGet kw "content"
    .ok (run p c)

/-- The `edit_file` entry:
`lambda **kw: run_edit(kw["path"], kw["old_text"], kw["new_text"])`. -/
def editLambda (run : String → String → String → String) : Handler :=
  fun kw => do
    let p ← kwGet kw "path"
    let o ← kwGet kw "old_text"
    let n ← kwGet kw "new_text"
    .ok (run p o n)

/-- Effect oracles standing in for the four effectful tool bodies (the
shell and the filesystem primitives are external collaborators). -/
structure ToolRuns where
  bash : String → String
  read : String → Option String → String
  write : String → String → String
  edit : String → String → String → String

/-- The s06 `TOOL_HANDLERS` table (bash, read_file, write_file, edit_file,
compact). -/
def TOOL_HANDLERS06 (tr : ToolRuns) : String → Option Handler :=
  fun name =>
    if name = "bash" then some (bashLambda tr.bash)
    else if name = "read_file" then some (readLambda tr.read)
    else if name = "write_file" then some (writeLambda tr.write)
    else if name = "edit_file" then some (editLambda tr.edit)
    else if name = "compact" then some (fun _ => .ok "已请求手动压缩。")
    else none

/-- The s04 `TOOL_HANDLERS` table (no `compact`, no `task`). -/
def TOOL_HANDLERS04 (tr : ToolRuns) : String → Option Handler :=
  fun name =>
    if name = "bash" then some (bashLambda tr.bash)
    else if name = "read_file" then some (readLambda tr.read)
    else if name = "write_file" then some (writeLambda tr.write)
    else if name = "edit_file" then some (editLambda tr.edit)
    else none

/-- One model response: assistant text plus the requested tool calls
(an absent/`None` field arrives as the empty list, as in the source's
`getattr(msg, "tool_calls", None) or []`). -/
structure ModelResponse where
  content : String
  tool_calls : List ToolCallRec

/-- Number of tool-role messages strictly after position `j` (the
specification-side reading of "the 3 most recent tool results"). -/
def toolCountAfter (messages : List Message) (j : Nat) : Nat :=
  (enumMsgs 0 messages).countP (fun p => decide (j < p.1) && (p.2.role == "tool"))

/-- The rewrite micro-compaction applies to one cleared tool message. -/
def microRewrite (messages : List Message) (m : Message) : Message :=
  { m with
    content := placeholderText (dictGet (tool_name_map messages) (m.tool_call_id.getD "") "unknown") }

theorem enumMsgs_getElem? (msgs : List Message) (n k : Nat) :
    (enumMsgs n msgs)[k]? = msgs[k]?.map (fun m => (n + k, m)) := by
  induction msgs generalizing n k with
  | nil => simp [enumMsgs]
  | cons m r ih =>
    cases k with
    | zero => simp [enumMsgs]
    | succ k =>
      simp only [enumMsgs, List.getElem?_cons_succ, ih]
      have h : n + 1 + k = n + (k + 1) := by omega
      simp only [h]

theorem mem_enumMsgs_zero {msgs : List Message} {p : Nat × Message} :
    p ∈ enumMsgs 0 msgs ↔ msgs[p.1]? = some p.2 := by
  obtain ⟨a, b⟩ := p
  constructor
  · intro h
    obtain ⟨k, hk⟩ := List.mem_iff_getElem?.mp h
    rw [enumMsgs_getElem?] at hk
    rcases hq : msgs[k]? with _ | m
    · simp [hq] at hk
    · simp only [hq, Option.map_some', Option.some_inj, Prod.mk.injEq, Nat.zero_add] at hk
      obtain ⟨h1, h2⟩ := hk
      subst h1; subst h2
      simpa using hq
  · intro h
    apply List.getElem?_mem (n := a)
    rw [enumMsgs_getElem?, h]
    simp

theorem enumMsgs_ge {msgs : List Message} {n : Nat} :
    ∀ p ∈ enumMsgs n msgs, n ≤ p.1 := by
  induction msgs generalizing n with
  | nil => simp [enumMsgs]
  | cons m r ih =>
    intro p hp
    simp only [enumMsgs, List.mem_cons] at hp
    rcases hp with h | h
    · subst h; simp
    · exact Nat.le_of_succ_le (ih p h)

theorem enumMsgs_pairwise (msgs : List Message) (n : Nat) :
    (enumMsgs n msgs).Pairwise (fun a b => a.1 < b.1) := by
  induction msgs generalizing n with
  | nil => exact List.Pairwise.nil
  | cons m r ih =>
    refine List.Pairwise.cons ?_ (ih (n + 1))
    intro p hp
    exact Nat.lt_of_lt_of_le (Nat.lt_succ_self n) (enumMsgs_ge p hp)

theorem tool_result_indices_pairwise (msgs : List Message) :
    (tool_result_indices msgs).Pairwise (fun a b => a.1 < b.1) :=
  List.Pairwise.sublist (List.filter_sublist _) (enumMsgs_pairwise msgs 0)

theorem mem_tool_result_indices {msgs : List Message} {p : Nat × Message} :
    p ∈ tool_result_indices msgs ↔ msgs[p.1]? = some p.2 ∧ p.2.role = "tool" := by
  unfold tool_result_indices
  rw [List.mem_filter, mem_enumMsgs_zero]
  simp

theorem take_sub_mem_iff {K : Nat} :
    ∀ {ps : List (Nat × Message)}, ps.Pairwise (fun a b => a.1 < b.1) →
      ∀ {q : Nat × Message}, q ∈ ps →
        (q ∈ ps.take (ps.length - K) ↔ K ≤ ps.countP (fun p => decide (q.1 < p.1))) := by
  intro ps
  induction ps with
  | nil => intro _ q hq; simp at hq
  | cons r rest ih =>
    intro hs q hq
    have hhead : ∀ b ∈ rest, r.1 < b.1 := (List.pairwise_cons.mp hs).1
    have htail : rest.Pairwise (fun a b => a.1 < b.1) := (List.pairwise_cons.mp hs).2
    rcases List.mem_cons.mp hq with hq | hq
    · subst hq
      have hcount : (q :: rest).countP (fun p => decide (q.1 < p.1)) = rest.length := by
        rw [List.countP_cons,
          List.countP_eq_length.mpr (fun b hb => by simpa using hhead b hb)]
        simp
      rw [hcount]
      by_cases hK : K ≤ rest.length
      · have : (q :: rest).length - K = (rest.length - K) + 1 := by
          simp only [List.length_cons]; omega
        rw [this, List.take_succ_cons]
        simp [hK]
      · have : (q :: rest).length - K = 0 := by simp only [List.length_cons]; omega
        rw [this, List.take_zero]
        simp [hK]
    · have hql : r.1 < q.1 := hhead q hq
      have hcount : (r :: rest).countP (fun p => decide (q.1 < p.1)) =
          rest.countP (fun p => decide (q.1 < p.1)) := by
        rw [List.countP_cons]
        have : ¬ (q.1 < r.1) := by omega
        simp [this]
      rw [hcount]
      by_cases hK : K ≤ rest.length
      · have : (r :: rest).length - K = (rest.length - K) + 1 := by
          simp only [List.length_cons]; omega
        rw [this, List.take_succ_cons]
        have hqr : q ≠ r := by
          intro h; subst h; omega
        rw [List.mem_cons]
        simp only [hqr, false_or]
        exact ih htail hq
      · have h0 : (r :: rest).length - K = 0 := by simp only [List.length_cons]; omega
        rw [h0, List.take_zero]
        have : rest.countP (fun p => decide (q.1 < p.1)) ≤ rest.length := List.countP_le_length _
        constructor
        · intro h; simp at h
        · intro h; omega

theorem foldl_set_getElem? (g : Nat × Message → Message) (cond : Nat × Message → Prop)
    [DecidablePred cond] :
    ∀ (ps : List (Nat × Message)) (msgs : List Message) (j : Nat),
      ps.Pairwise (fun a b => a.1 ≠ b.1) →
      (ps.foldl (fun ms p => if cond p then ms.set p.1 (g p) else ms) msgs)[j]? =
        (match ps.find? (fun p => p.1 == j) with
         | some p => if cond p then msgs[j]?.map (fun _ => g p) else msgs[j]?
         | none => msgs[j]?) := by
  intro ps
  induction ps with
  | nil => intro msgs j _; simp
  | cons p rest ih =>
    intro msgs j hs
    have hhead : ∀ b ∈ rest, p.1 ≠ b.1 := (List.pairwise_cons.mp hs).1
    have htail : rest.Pairwise (fun a b => a.1 ≠ b.1) := (List.pairwise_cons.mp hs).2
    simp only [List.foldl_cons]
    rw [ih _ j htail]
    by_cases hpj : p.1 = j
    · have hfind : rest.find? (fun q => q.1 == j) = none := by
        rw [List.find?_eq_none]
        intro q hq
        simp only [beq_iff_eq]
        intro h
        exact hhead q hq (by omega)
      rw [hfind]
      have hfind2 : (p :: rest).find? (fun q => q.1 == j) = some p :=
        List.find?_cons_of_pos _ (by simpa using hpj)
      rw [hfind2]
      by_cases hc : cond p
      · simp only [hc, if_true]
        subst hpj
        rw [List.getElem?_set_self']
        rfl
      · simp [hc]
    · have hfind2 : (p :: rest).find? (fun q => q.1 == j) = rest.find? (fun q => q.1 == j) :=
        List.find?_cons_of_neg _ (by simpa using hpj)
      rw [hfind2]
      have hset : (if cond p then msgs.set p.1 (g p) else msgs)[j]? = msgs[j]? := by
        by_cases hc : cond p
        · simp only [hc, if_true]
          exact List.getElem?_set_ne hpj
        · simp [hc]
      rw [hset]

theorem toolCountAfter_eq_countP (msgs : List Message) (j : Nat) :
    toolCountAfter msgs j = (tool_result_indices msgs).countP (fun p => decide (j < p.1)) := by
  unfold toolCountAfter tool_result_indices
  rw [List.countP_filter]

theorem countP_lt_of_mem_not {α : Type} {l : List α} {a : α} {p : α → Bool}
    (hmem : a ∈ l) (hp : ¬ p a) : l.countP p < l.length := by
  obtain ⟨s, t, rfl⟩ := List.append_of_mem hmem
  rw [List.countP_append, List.countP_cons]
  simp only [hp, decide_eq_true_eq]
  have hs := List.countP_le_length (l := s) (p := p)
  have ht := List.countP_le_length (l := t) (p := p)
  simp only [List.length_append, List.length_cons]
  simp [hp]
  omega

theorem micro_compact_getElem? (msgs : List Message) (j : Nat) :
    (micro_compact msgs)[j]? = msgs[j]?.map (fun m =>
      if m.role = "tool" ∧ KEEP_RECENT ≤ toolCountAfter msgs j ∧ 100 < m.content.length
      then microRewrite msgs m else m) := by
  have hsorted := tool_result_indices_pairwise msgs
  by_cases hlen : (tool_result_indices msgs).length ≤ KEEP_RECENT
  · have hmc : micro_compact msgs = msgs := by
      unfold micro_compact
      simp [hlen]
    rw [hmc]
    rcases hm : msgs[j]? with _ | m
    · simp
    · simp only [Option.map_some']
      have hcond : ¬ (m.role = "tool" ∧ KEEP_RECENT ≤ toolCountAfter msgs j ∧
          100 < m.content.length) := by
        rintro ⟨hrole, hcnt, _⟩
        have hmem : (j, m) ∈ tool_result_indices msgs :=
          mem_tool_result_indices.mpr ⟨hm, hrole⟩
        have hlt : (tool_result_indices msgs).countP (fun p => decide (j < p.1)) <
            (tool_result_indices msgs).length :=
          countP_lt_of_mem_not hmem (by simp)
        rw [toolCountAfter_eq_countP] at hcnt
        omega
      rw [if_neg hcond]
  · have hmc : micro_compact msgs =
        ((tool_result_indices msgs).take ((tool_result_indices msgs).length - KEEP_RECENT)).foldl
          (fun ms p =>
            if p.2.content.length > 100 then
              ms.set p.1
                { p.2 with
                  content := placeholderText
                    (dictGet (tool_name_map msgs) (p.2.tool_call_id.getD "") "unknown") }
            else ms)
          msgs := by
      unfold micro_compact
      simp [hlen]
    rw [hmc]
    have hne : ((tool_result_indices msgs).take
        ((tool_result_indices msgs).length - KEEP_RECENT)).Pairwise (fun a b => a.1 ≠ b.1) :=
      ((hsorted.sublist (List.take_sublist _ _)).imp (fun h => Nat.ne_of_lt h))
    rw [foldl_set_getElem?
      (fun p => { p.2 with
        content := placeholderText (dictGet (tool_name_map msgs) (p.2.tool_call_id.getD "") "unknown") })
      (fun p => p.2.content.length > 100) _ msgs j hne]
    rcases hfind : ((tool_result_indices msgs).take
        ((tool_result_indices msgs).length - KEEP_RECENT)).find? (fun p => p.1 == j) with _ | p
    · -- no cleared pair at this index
      rw [hfind]
      rcases hm : msgs[j]? with _ | m
      · simp
      · simp only [Option.map_some']
        have hcond : ¬ (m.role = "tool" ∧ KEEP_RECENT ≤ toolCountAfter msgs j ∧
            100 < m.content.length) := by
          rintro ⟨hrole, hcnt, _⟩
          have hmem : (j, m) ∈ tool_result_indices msgs :=
            mem_tool_result_indices.mpr ⟨hm, hrole⟩
          have htake : (j, m) ∈ (tool_result_indices msgs).take
              ((tool_result_indices msgs).length - KEEP_RECENT) := by
            rw [take_sub_mem_iff hsorted hmem]
            rw [toolCountAfter_eq_countP] at hcnt
            exact hcnt
          have := List.find?_eq_none.mp hfind _ htake
          simp at this
        rw [if_neg hcond]
    · -- a cleared pair at this index
      have hp : p ∈ (tool_result_indices msgs).take
          ((tool_result_indices msgs).length - KEEP_RECENT) :=
        List.mem_of_find?_eq_some hfind
      have hpj : p.1 = j := by
        have := List.find?_some hfind
        simpa using this
      have hptri : p ∈ tool_result_indices msgs :=
        (List.take_sublist _ _).mem hp
      obtain ⟨hpm, hprole⟩ := mem_tool_result_indices.mp hptri
      rw [hpj] at hpm
      rw [hfind, hpm]
      simp only [Option.map_some']
      have hcnt : KEEP_RECENT ≤ toolCountAfter msgs j := by
        rw [toolCountAfter_eq_countP]
        have := (take_sub_mem_iff hsorted hptri).mp hp
        rw [hpj] at this
        exact this
      by_cases hlong : p.2.content.length > 100
      · rw [if_pos hlong, if_pos ⟨hprole, hcnt, hlong⟩]
        rfl
      · rw [if_neg hlong, if_neg (by rintro ⟨_, _, h⟩; exact hlong h)]

/-- The pointwise effect of micro-compaction at position `j`. -/
def microF (msgs : List Message) (j : Nat) (m : Message) : Message :=
  if m.role = "tool" ∧ KEEP_RECENT ≤ toolCountAfter msgs j ∧ 100 < m.content.length
  then microRewrite msgs m else m

theorem micro_compact_getElem_microF (msgs : List Message) (j : Nat) :
    (micro_compact msgs)[j]? = msgs[j]?.map (microF msgs j) :=
  micro_compact_getElem? msgs j

theorem foldl_set_length (g : Nat × Message → Message) (cond : Nat × Message → Prop)
    [DecidablePred cond] :
    ∀ (ps : List (Nat × Message)) (msgs : List Message),
      (ps.foldl (fun ms p => if cond p then ms.set p.1 (g p) else ms) msgs).length =
        msgs.length := by
  intro ps
  induction ps with
  | nil => intro msgs; rfl
  | cons p rest ih =>
    intro msgs
    simp only [List.foldl_cons]
    rw [ih]
    by_cases hc : cond p
    · simp [hc]
    · simp [hc]

theorem micro_compact_length (msgs : List Message) :
    (micro_compact msgs).length = msgs.length := by
  unfold micro_compact
  by_cases hlen : (tool_result_indices msgs).length ≤ KEEP_RECENT
  · simp [hlen]
  · simp only [hlen, if_false]
    exact foldl_set_length _ _ _ _

/-- The fields of a message other than its content. -/
def msgSkeleton (m : Message) : String × Option String × Option (List ToolCallRec) :=
  (m.role, m.tool_call_id, m.tool_calls)

theorem micro_compact_skeleton (msgs : List Message) :
    (micro_compact msgs).map msgSkeleton = msgs.map msgSkeleton := by
  apply List.ext_getElem?
  intro j
  rw [List.getElem?_map, List.getElem?_map, micro_compact_getElem_microF]
  rcases msgs[j]? with _ | m
  · rfl
  · simp only [Option.map_some']
    unfold microF
    by_cases hc : (m.role = "tool" ∧ KEEP_RECENT ≤ toolCountAfter msgs j ∧
        100 < m.content.length)
    · rw [if_pos hc]; rfl
    · rw [if_neg hc]

theorem tool_name_map_congr :
    ∀ l₁ l₂ : List Message, l₁.map msgSkeleton = l₂.map msgSkeleton →
      tool_name_map l₁ = tool_name_map l₂ := by
  have aux : ∀ l₁ l₂ : List Message, l₁.map msgSkeleton = l₂.map msgSkeleton →
      ∀ acc, l₁.foldl (fun m msg =>
          if msg.role = "assistant" then
            (msg.tool_calls.getD []).foldl
              (fun m tc => if tc.id ≠ "" then dictInsert m tc.id tc.name else m) m
          else m) acc =
        l₂.foldl (fun m msg =>
          if msg.role = "assistant" then
            (msg.tool_calls.getD []).foldl
              (fun m tc => if tc.id ≠ "" then dictInsert m tc.id tc.name else m) m
          else m) acc := by
    intro l₁
    induction l₁ with
    | nil =>
      intro l₂ h acc
      cases l₂ with
      | nil => rfl
      | cons b r₂ => simp at h
    | cons a r ih =>
      intro l₂ h acc
      cases l₂ with
      | nil => simp at h
      | cons b r₂ =>
        simp only [List.map_cons, List.cons.injEq] at h
        obtain ⟨hab, hr⟩ := h
        have hrole : a.role = b.role := congrArg Prod.fst hab
        have htc : a.tool_calls = b.tool_calls := congrArg (fun x => x.2.2) hab
        simp only [List.foldl_cons]
        rw [hrole, htc]
        exact ih r₂ hr _
  intro l₁ l₂ h
  exact aux l₁ l₂ h []

theorem toolCountAfter_congr :
    ∀ l₁ l₂ : List Message, l₁.map msgSkeleton = l₂.map msgSkeleton →
      ∀ j, toolCountAfter l₁ j = toolCountAfter l₂ j := by
  have aux : ∀ l₁ l₂ : List Message, l₁.map msgSkeleton = l₂.map msgSkeleton →
      ∀ n j, (enumMsgs n l₁).countP (fun p => decide (j < p.1) && (p.2.role == "tool")) =
        (enumMsgs n l₂).countP (fun p => decide (j < p.1) && (p.2.role == "tool")) := by
    intro l₁
    induction l₁ with
    | nil =>
      intro l₂ h n j
      cases l₂ with
      | nil => rfl
      | cons b r₂ => simp at h
    | cons a r ih =>
      intro l₂ h n j
      cases l₂ with
      | nil => simp at h
      | cons b r₂ =>
        simp only [List.map_cons, List.cons.injEq] at h
        obtain ⟨hab, hr⟩ := h
        have hrole : a.role = b.role := congrArg Prod.fst hab
        simp only [enumMsgs, List.countP_cons]
        rw [hrole, ih r₂ hr (n + 1) j]
  intro l₁ l₂ h j
  exact aux l₁ l₂ h 0 j

theorem microRewrite_congr {l₁ l₂ : List Message}
    (h : tool_name_map l₁ = tool_name_map l₂) : microRewrite l₁ = microRewrite l₂ := by
  funext m
  unfold microRewrite
  rw [h]

theorem microF_idem (msgs : List Message) (j : Nat) (m : Message) :
    microF msgs j (microF msgs j m) = microF msgs j m := by
  unfold microF
  by_cases hc : (m.role = "tool" ∧ KEEP_RECENT ≤ toolCountAfter msgs j ∧
      100 < m.content.length)
  · rw [if_pos hc]
    by_cases hlong : 100 < (microRewrite msgs m).content.length
    · rw [if_pos ⟨hc.1, hc.2.1, hlong⟩]
      rfl
    · rw [if_neg (by rintro ⟨_, _, h⟩; exact hlong h)]
  · rw [if_neg hc, if_neg hc]

theorem tool_result_indices_length (msgs : List Message) :
    (tool_result_indices msgs).length = msgs.countP (fun m => m.role == "tool") := by
  have aux : ∀ (n : Nat) (l : List Message),
      (enumMsgs n l).countP (fun p => p.2.role == "tool") =
        l.countP (fun m => m.role == "tool") := by
    intro n l
    induction l generalizing n with
    | nil => rfl
    | cons a r ih =>
      simp only [enumMsgs, List.countP_cons, ih]
  unfold tool_result_indices
  rw [← List.countP_eq_length_filter, aux]

/-- C2: for every message list, micro-compaction is a no-op when the store
holds at most 3 tool-role messages; otherwise it preserves the length of the
store and rewrites position `j` exactly when the message there is a
tool-role message with at least `KEEP_RECENT` tool-role messages after it
(i.e. not among the 3 most recent) and content longer than 100 characters,
in which case only the content is replaced, by a placeholder naming the
originating tool recovered via `tool_call_id` from the tool calls recorded
on assistant messages; every other message is returned unchanged. -/
theorem C2_micro_compact_behavior (msgs : List Message) :
    (msgs.countP (fun m => m.role == "tool") ≤ 3 → micro_compact msgs = msgs) ∧
    (micro_compact msgs).length = msgs.length ∧
    (∀ j : Nat, (micro_compact msgs)[j]? = msgs[j]?.map (fun m =>
      if m.role = "tool" ∧ KEEP_RECENT ≤ toolCountAfter msgs j ∧ 100 < m.content.length
      then { m with
             content :=
               placeholderText (dictGet (tool_name_map msgs) (m.tool_call_id.getD "") "unknown") }
      else m)) := by
  refine ⟨?_, micro_compact_length msgs, fun j => micro_compact_getElem? msgs j⟩
  intro hle
  unfold micro_compact
  rw [if_pos]
  rw [tool_result_indices_length]
  exact hle

theorem C2_micro_compact_behavior_witness :
    micro_compact [{ role := "user", content := "hi" }] =
      [{ role := "user", content := "hi" }] :=
  (C2_micro_compact_behavior _).1 (by decide)

/-- C5: micro-compaction is idempotent — applying it twice in a row, with
nothing added or modified in between, yields the same store as applying it
once. -/
theorem C5_micro_compact_idempotent (msgs : List Message) :
    micro_compact (micro_compact msgs) = micro_compact msgs := by
  apply List.ext_getElem?
  intro j
  rw [micro_compact_getElem_microF (micro_compact msgs) j,
    micro_compact_getElem_microF msgs j]
  have hsk := micro_compact_skeleton msgs
  have hF : microF (micro_compact msgs) j = microF msgs j := by
    funext m
    unfold microF
    rw [toolCountAfter_congr _ _ hsk j, microRewrite_congr (tool_name_map_congr _ _ hsk)]
  rw [hF, Option.map_map]
  rcases msgs[j]? with _ | m
  · rfl
  · simp only [Option.map_some', Function.comp]
    rw [microF_idem]

/-- A concrete summarization oracle used by closed demonstration theorems. -/
def constSummary : List Message → String := fun _ => "s"

/-- C1 counterexample: `auto_compact` names the transcript file by the
integer clock second alone and opens it with mode `"w"`.  When a transcript
for the same second already exists — here `transcript_100` holding `"old"` —
the compaction run produces no new file (the set of file names is unchanged)
and destroys the existing file's content, refuting "exactly one new file per
compaction event, never overwriting an existing file". -/
theorem C1_auto_compact_counterexample :
    fsLookup [(transcriptPath 100, "old")] (transcriptPath 100) = some "old" ∧
    fsNames (auto_compact [(transcriptPath 100, "old")] 100 constSummary []).1 =
      [transcriptPath 100] ∧
    fsLookup (auto_compact [(transcriptPath 100, "old")] 100 constSummary []).1
      (transcriptPath 100) = some "" := by
  decide

/-- C1 (amended): whenever auto-compaction runs — both the Tier 2 threshold
branch and the manual `compact` branch of the s06 loop call `auto_compact` —
it writes the serialization of the entire current message sequence to the
timestamp-named transcript file and unconditionally replaces the in-memory
store with exactly two synthetic messages: a user-role pointer to the
transcript plus the summary, then an assistant-role acknowledgment.
Provided no earlier transcript carries the same clock second, the write
creates exactly one new file and leaves every other file unchanged; a
compaction in the same second as an existing transcript instead overwrites
that file. -/
theorem C1_auto_compact_amended (fs : FS) (ts : Nat)
    (summarize : List Message → String) (messages : List Message)
    (hfresh : transcriptPath ts ∉ fsNames fs) :
    fsNames (auto_compact fs ts summarize messages).1 = transcriptPath ts :: fsNames fs ∧
    fsLookup (auto_compact fs ts summarize messages).1 (transcriptPath ts) =
      some (jsonlDump messages) ∧
    (∀ q, q ≠ transcriptPath ts →
      fsLookup (auto_compact fs ts summarize messages).1 q = fsLookup fs q) ∧
    (auto_compact fs ts summarize messages).2 =
      [{ role := "user",
         content := "[对话已压缩。笔录：" ++ transcriptPath ts ++ "]\n\n" ++
           pyStrip (summarize messages) },
       { role := "assistant", content := "已了解。我已从总结中获取上下文，继续执行。" }] := by
  have hfilter : fs.filter (fun e => e.1 ≠ transcriptPath ts) = fs := by
    rw [List.filter_eq_self]
    intro e he
    simp only [decide_eq_true_eq]
    intro hx
    exact hfresh (hx ▸ List.mem_map_of_mem Prod.fst he)
  refine ⟨?_, ?_, ?_, rfl⟩
  · show fsNames (fsWrite fs (transcriptPath ts) (jsonlDump messages)) = _
    unfold fsWrite fsNames
    rw [hfilter]
    rfl
  · show fsLookup (fsWrite fs (transcriptPath ts) (jsonlDump messages)) _ = _
    unfold fsWrite fsLookup
    rw [List.find?_cons_of_pos _ (by simp)]
    rfl
  · intro q hq
    show fsLookup (fsWrite fs (transcriptPath ts) (jsonlDump messages)) q = _
    unfold fsWrite fsLookup
    rw [List.find?_cons_of_neg _ (by simp; exact fun h => hq h.symm), hfilter]

theorem C1_auto_compact_amended_witness :
    transcriptPath 1 ∉ fsNames [] ∧
    fsNames (auto_compact [] 1 constSummary []).1 = [transcriptPath 1] :=
  ⟨by decide, (C1_auto_compact_amended [] 1 constSummary [] (by decide)).1⟩

/-- Guarded dispatch of one non-`compact` call in the s06 loop (lines
322-331): arguments are parsed, with a parse failure degrading to the empty
argument set; an unregistered name yields the unknown-tool text; the handler
call sits inside `try/except`, so a raised error becomes a textual result. -/
def dispatch06 (registry : String → Option Handler) (parse : String → Option Args)
    (tc : ToolCallRec) : String :=
  match registry tc.name with
  | none => "未知工具: " ++ tc.name
  | some h =>
    match h ((parse tc.arguments).getD []) with
    | .ok out => out
    | .error e => "错误：" ++ e

/-- Output recorded for one call in the s06 loop: the `compact` tool is
special-cased before dispatch. -/
def exec06Output (registry : String → Option Handler) (parse : String → Option Args)
    (tc : ToolCallRec) : String :=
  if tc.name = "compact" then "正在压缩..." else dispatch06 registry parse tc

/-- The tool-role message appended for call `tc` with raw output `output`
(truncated to 50000 characters, as in the source). -/
def toolMsgOf (tc : ToolCallRec) (output : String) : Message :=
  { role := "tool", content := pyTruncate 50000 output, tool_call_id := some tc.id }

/-- The `for tc in tool_calls` loop of the s06 variant: appends one
tool-role message per call and tracks whether a `compact` call was seen. -/
def execLoop06 (registry : String → Option Handler) (parse : String → Option Args)
    (tcs : List ToolCallRec) (acc : List Message × Bool) : List Message × Bool :=
  tcs.foldl
    (fun acc tc =>
      (acc.1 ++ [toolMsgOf tc (exec06Output registry parse tc)],
       acc.2 || (tc.name == "compact")))
    acc

theorem execLoop06_eq (registry : String → Option Handler) (parse : String → Option Args) :
    ∀ (tcs : List ToolCallRec) (ms : List Message) (b : Bool),
      execLoop06 registry parse tcs (ms, b) =
        (ms ++ tcs.map (fun tc => toolMsgOf tc (exec06Output registry parse tc)),
         b || tcs.any (fun tc => tc.name == "compact")) := by
  intro tcs
  induction tcs with
  | nil => intro ms b; simp [execLoop06]
  | cons tc rest ih =>
    intro ms b
    simp only [execLoop06, List.foldl_cons] at *
    rw [ih]
    simp [Bool.or_assoc]

/-- The s06 system prompt, parametric in the working directory string. -/
def SYSTEM06 (wd : String) : String :=
  "你是工作目录 " ++ wd ++ " 下的编程代理。使用工具完成任务。"

/-- The assistant message recording a batch of tool calls verbatim. -/
def assistantRecord (content : String) (tcs : List ToolCallRec) : Message :=
  { role := "assistant", content := content, tool_calls := some tcs }

/-- Result of one iteration of the s06 `agent_loop` body, with ghost fields
for auditing: `request` is the message list sent to the model, `postAppend`
the store immediately after the assistant record and the per-call tool
messages were appended (before any manual compaction), `autoFired` and
`manualFired` the two compaction triggers, `finished` the loop exit flag. -/
structure S06Step where
  fs : FS
  messages : List Message
  request : List Message
  autoFired : Bool
  postAppend : List Message
  manualFired : Bool
  finished : Bool

/-- The response-processing phase of one s06 `agent_loop` iteration (lines
299-346): on a response with no tool calls the loop appends the final
assistant text and exits; otherwise it appends the assistant record and one
tool-role message per call, then performs the manual (Tier 3) compaction
when a `compact` call was among the batch.  `request`, `fs1` and `m2` are
the request, filesystem and store coming out of the pre-request phase,
`resp` the model response, `ts2` the clock second of a manual compaction. -/
def s06_process_response (registry : String → Option Handler) (parse : String → Option Args)
    (summarize : List Message → String) (ts2 : Nat) (request : List Message)
    (fs1 : FS) (m2 : List Message) (resp : ModelResponse) (autoFired : Bool) : S06Step :=
  if resp.tool_calls.isEmpty then
    { fs := fs1, messages := m2 ++ [{ role := "assistant", content := pyStrip resp.content }],
      request := request, autoFired := autoFired,
      postAppend := m2 ++ [{ role := "assistant", content := pyStrip resp.content }],
      manualFired := false, finished := true }
  else
    if (execLoop06 registry parse resp.tool_calls
        (m2 ++ [assistantRecord resp.content resp.tool_calls], false)).2 then
      { fs := (auto_compact fs1 ts2 summarize (execLoop06 registry parse resp.tool_calls
          (m2 ++ [assistantRecord resp.content resp.tool_calls], false)).1).1,
        messages := (auto_compact fs1 ts2 summarize (execLoop06 registry parse resp.tool_calls
          (m2 ++ [assistantRecord resp.content resp.tool_calls], false)).1).2,
        request := request, autoFired := autoFired,
        postAppend := (execLoop06 registry parse resp.tool_calls
          (m2 ++ [assistantRecord resp.content resp.tool_calls], false)).1,
        manualFired := true, finished := false }
    else
      { fs := fs1,
        messages := (execLoop06 registry parse resp.tool_calls
          (m2 ++ [assistantRecord resp.content resp.tool_calls], false)).1,
        request := request, autoFired := autoFired,
        postAppend := (execLoop06 registry parse resp.tool_calls
          (m2 ++ [assistantRecord resp.content resp.tool_calls], false)).1,
        manualFired := false, finished := false }

/-- The store after the pre-request hooks of the s06 loop (lines 289-292):
micro-compaction always, then the full Tier 2 rewrite when the token
estimate of the already micro-compacted store exceeds the threshold. -/
def s06_preStore (summarize : List Message → String) (ts1 : Nat) (fs : FS)
    (messages : List Message) : List Message :=
  if THRESHOLD < estimate_tokens (micro_compact messages)
  then (auto_compact fs ts1 summarize (micro_compact messages)).2
  else micro_compact messages

/-- The filesystem after the pre-request hooks (a transcript is written
exactly when auto-compaction fired). -/
def s06_preFS (summarize : List Message → String) (ts1 : Nat) (fs : FS)
    (messages : List Message) : FS :=
  if THRESHOLD < estimate_tokens (micro_compact messages)
  then (auto_compact fs ts1 summarize (micro_compact messages)).1
  else fs

/-- The message list the s06 loop sends to the model (line 293-298): the
system prompt prepended to the current store. -/
def s06_request (summarize : List Message → String) (ts1 : Nat) (wd : String) (fs : FS)
    (messages : List Message) : List Message :=
  { role := "system", content := SYSTEM06 wd } :: s06_preStore summarize ts1 fs messages

/-- One iteration of the s06 `agent_loop` (lines 286-346): the pre-request
hooks run first (micro-compaction, then the threshold-triggered
auto-compaction), the request is issued, and the response is processed. -/
def s06_agent_step (registry : String → Option Handler) (parse : String → Option Args)
    (oracle : List Message → ModelResponse) (summarize : List Message → String)
    (ts1 ts2 : Nat) (wd : String) (fs : FS) (messages : List Message) : S06Step :=
  s06_process_response registry parse summarize ts2
    (s06_request summarize ts1 wd fs messages)
    (s06_preFS summarize ts1 fs messages)
    (s06_preStore summarize ts1 fs messages)
    (oracle (s06_request summarize ts1 wd fs messages))
    (decide (THRESHOLD < estimate_tokens (micro_compact messages)))

theorem s06_process_response_request (registry : String → Option Handler)
    (parse : String → Option Args) (summarize : List Message → String) (ts2 : Nat)
    (request : List Message) (fs1 : FS) (m2 : List Message) (resp : ModelResponse)
    (autoFired : Bool) :
    (s06_process_response registry parse summarize ts2 request fs1 m2 resp autoFired).request =
      request ∧
    (s06_process_response registry parse summarize ts2 request fs1 m2 resp autoFired).autoFired =
      autoFired := by
  unfold s06_process_response
  split
  · exact ⟨rfl, rfl⟩
  · split
    · exact ⟨rfl, rfl⟩
    · exact ⟨rfl, rfl⟩

theorem s06_process_response_postAppend (registry : String → Option Handler)
    (parse : String → Option Args) (summarize : List Message → String) (ts2 : Nat)
    (request : List Message) (fs1 : FS) (m2 : List Message) (resp : ModelResponse)
    (autoFired : Bool) :
    (s06_process_response registry parse summarize ts2 request fs1 m2 resp autoFired).postAppend =
      m2 ++ (if resp.tool_calls.isEmpty then
               [{ role := "assistant", content := pyStrip resp.content }]
             else
               assistantRecord resp.content resp.tool_calls ::
                 resp.tool_calls.map (fun tc => toolMsgOf tc (exec06Output registry parse tc))) := by
  unfold s06_process_response
  split <;> rename_i h
  · rfl
  · split <;> simp [execLoop06_eq]

theorem s06_step_pre (registry : String → Option Handler) (parse : String → Option Args)
    (oracle : List Message → ModelResponse) (summarize : List Message → String)
    (ts1 ts2 : Nat) (wd : String) (fs : FS) (messages : List Message) :
    (s06_agent_step registry parse oracle summarize ts1 ts2 wd fs messages).autoFired =
      decide (THRESHOLD < estimate_tokens (micro_compact messages)) ∧
    (s06_agent_step registry parse oracle summarize ts1 ts2 wd fs messages).request =
      { role := "system", content := SYSTEM06 wd } ::
        (if THRESHOLD < estimate_tokens (micro_compact messages)
         then (auto_compact fs ts1 summarize (micro_compact messages)).2
         else micro_compact messages) := by
  unfold s06_agent_step
  obtain ⟨hreq, hauto⟩ := s06_process_response_request registry parse summarize ts2
    (s06_request summarize ts1 wd fs messages)
    (s06_preFS summarize ts1 fs messages)
    (s06_preStore summarize ts1 fs messages)
    (oracle (s06_request summarize ts1 wd fs messages))
    (decide (THRESHOLD < estimate_tokens (micro_compact messages)))
  exact ⟨hauto, hreq⟩

theorem C4_tier1_before_tier2 (registry : String → Option Handler)
    (parse : String → Option Args) (oracle : List Message → ModelResponse)
    (summarize : List Message → String) (ts1 ts2 : Nat) (wd : String)
    (fs : FS) (messages : List Message) :
    ((s06_agent_step registry parse oracle summarize ts1 ts2 wd fs messages).autoFired = true ↔
      THRESHOLD < estimate_tokens (micro_compact messages)) ∧
    ((s06_agent_step registry parse oracle summarize ts1 ts2 wd fs messages).request =
      { role := "system", content := SYSTEM06 wd } ::
        (if THRESHOLD < estimate_tokens (micro_compact messages)
         then (auto_compact fs ts1 summarize (micro_compact messages)).2
         else micro_compact messages)) ∧
    (estimate_tokens (micro_compact messages) ≤ THRESHOLD →
      (s06_agent_step registry parse oracle summarize ts1 ts2 wd fs messages).autoFired = false ∧
      (s06_agent_step registry parse oracle summarize ts1 ts2 wd fs messages).request =
        { role := "system", content := SYSTEM06 wd } :: micro_compact messages) := by
  obtain ⟨h1, h2⟩ := s06_step_pre registry parse oracle summarize ts1 ts2 wd fs messages
  refine ⟨?_, h2, ?_⟩
  · rw [h1]
    simp
  · intro hle
    have hnp : ¬ THRESHOLD < estimate_tokens (micro_compact messages) := by omega
    refine ⟨?_, ?_⟩
    · rw [h1]
      simpa using hnp
    · rw [h2, if_neg hnp]

/-- A concrete effect-oracle bundle for closed demonstration theorems. -/
def demoRuns : ToolRuns :=
  { bash := fun _ => "ok", read := fun _ _ => "ok",
    write := fun _ _ => "ok", edit := fun _ _ _ => "ok" }

/-- A parse oracle on which every argument payload is malformed. -/
def noParse : String → Option Args := fun _ => none

/-- A model oracle that always answers with plain text and no tool calls. -/
def constOracle : List Message → ModelResponse :=
  fun _ => { content := "", tool_calls := [] }

theorem C4_tier1_before_tier2_witness :
    estimate_tokens (micro_compact []) ≤ THRESHOLD ∧
    (s06_agent_step (TOOL_HANDLERS06 demoRuns) noParse constOracle constSummary
        0 0 "w" [] []).autoFired = false :=
  ⟨by decide,
   ((C4_tier1_before_tier2 (TOOL_HANDLERS06 demoRuns) noParse constOracle constSummary
      0 0 "w" [] []).2.2 (by decide)).1⟩

/-- Dispatch of one non-`task` call in the s04 loops (parent loop lines
205-217 and `run_subagent` lines 162-168): parse failure still degrades to
the empty argument set and an unregistered name yields the unknown-tool
text, but there is no `try/except` around the handler call, so an error
raised by the handler propagates (the `Except.error` case). -/
def dispatch04 (registry : String → Option Handler) (parse : String → Option Args)
    (tc : ToolCallRec) : Except String String :=
  match registry tc.name with
  | none => .ok ("未知工具: " ++ tc.name)
  | some h => h ((parse tc.arguments).getD [])

/-- The `for tc in tool_calls` loop of `run_subagent`: appends one tool-role
message per call, or propagates the first raised handler error, in which
case the messages for the remaining calls (including the failing one) are
never appended and the loop dies. -/
def execCalls04 (registry : String → Option Handler) (parse : String → Option Args) :
    List ToolCallRec → Except String (List Message)
  | [] => .ok []
  | tc :: rest =>
    match dispatch04 registry parse tc with
    | .error e => .error e
    | .ok out => (execCalls04 registry parse rest).map (fun ms => toolMsgOf tc out :: ms)

/-- C6 counterexample: the claim quantifies over every agent variant, but
the s04 subagent variant has no exception guard around handler invocation.
On the concrete call `bash` with an unparseable argument payload, the
arguments degrade to the empty set, the handler is invoked, raises a
`KeyError` for the missing `command` — and in s04 that error propagates:
`execCalls04` yields `Except.error`, no tool-role message is appended and
the loop terminates, while the guarded s06 dispatch turns the very same
call into a textual error result. -/
theorem C6_error_handling_counterexample :
    execCalls04 (TOOL_HANDLERS04 demoRuns) noParse
      [{ id := "call_1", name := "bash", arguments := "not json" }] =
      Except.error "\x27command\x27" ∧
    dispatch06 (TOOL_HANDLERS06 demoRuns) noParse
      { id := "call_1", name := "bash", arguments := "not json" } =
      "错误：\x27command\x27" :=
  ⟨rfl, rfl⟩

/-- C6 (amended): in the variants whose loop wraps handler invocation in an
exception guard (the s03, s05 and s06 loops, embedded here as `dispatch06`
and `execLoop06`): a malformed argument payload degrades to the empty
argument set with the handler still invoked, an unregistered name yields the
textual unknown-tool result, a handler raising yields a textual error result,
and the loop always appends exactly one tool-role message per call.  In the
s02 and s04 loops (embedded as `dispatch04`/`execCalls04`), malformed
payloads and unknown tools behave the same way, but a raising handler
propagates: the loop terminates with the exception and the tool-role message
for that call (and all later ones) is never appended. -/
theorem C6_error_handling_amended (registry : String → Option Handler)
    (parse : String → Option Args) (tc : ToolCallRec) :
    (∀ h, parse tc.arguments = none → registry tc.name = some h →
      dispatch06 registry parse tc =
        (match h [] with
         | .ok out => out
         | .error e => "错误：" ++ e)) ∧
    (registry tc.name = none → dispatch06 registry parse tc = "未知工具: " ++ tc.name) ∧
    (∀ h e, registry tc.name = some h → h ((parse tc.arguments).getD []) = .error e →
      dispatch06 registry parse tc = "错误：" ++ e) ∧
    (∀ (tcs : List ToolCallRec) (ms : List Message) (b : Bool),
      (execLoop06 registry parse tcs (ms, b)).1.length = ms.length + tcs.length) ∧
    (registry tc.name = none →
      dispatch04 registry parse tc = .ok ("未知工具: " ++ tc.name)) ∧
    (∀ h e, registry tc.name = some h → h ((parse tc.arguments).getD []) = .error e →
      ∀ rest, execCalls04 registry parse (tc :: rest) = .error e) := by
  refine ⟨?_, ?_, ?_, ?_, ?_, ?_⟩
  · intro h hparse hreg
    unfold dispatch06
    rw [hparse, hreg]
    rfl
  · intro hreg
    unfold dispatch06
    rw [hreg]
  · intro h e hreg herr
    unfold dispatch06
    simp only [hreg]
    rw [herr]
  · intro tcs ms b
    rw [execLoop06_eq]
    simp
  · intro hreg
    unfold dispatch04
    rw [hreg]
  · intro h e hreg herr rest
    unfold execCalls04 dispatch04
    simp only [hreg]
    rw [herr]

theorem C6_error_handling_amended_witness :
    dispatch06 (TOOL_HANDLERS06 demoRuns) noParse
      { id := "c", name := "frobnicate", arguments := "" } = "未知工具: frobnicate" ∧
    execCalls04 (TOOL_HANDLERS04 demoRuns) noParse
      [{ id := "c", name := "bash", arguments := "x" }] = Except.error "\x27command\x27" :=
  ⟨(C6_error_handling_amended (TOOL_HANDLERS06 demoRuns) noParse
      { id := "c", name := "frobnicate", arguments := "" }).2.1 rfl,
   (C6_error_handling_amended (TOOL_HANDLERS04 demoRuns) noParse
      { id := "c", name := "bash", arguments := "x" }).2.2.2.2.2
     (bashLambda demoRuns.bash) "\x27command\x27" rfl rfl []⟩

/-- One stored, validated progress item. -/
structure TodoItem where
  id : String
  text : String
  status : String
deriving DecidableEq

/-- One submitted progress item as the model sends it: `id` and `status` may
be absent (`item.get` defaults apply), `text` defaults to the empty string. -/
structure RawItem where
  id : Option String := none
  text : String := ""
  status : Option String := none
deriving DecidableEq

/-- Python `str.lower()` (character-wise lowering). -/
def pyLower (s : String) : String :=
  String.mk (s.toList.map Char.toLower)

/-- The normalized status of a submitted item: missing defaults to
`"pending"`, then Python `.lower()` is applied. -/
def normStatus (it : RawItem) : String :=
  pyLower (it.status.getD "pending")

/-- The validation/normalization loop of `TodoManager.update` (s03 lines
69-83): walks the submission in order, raising on the first empty text or
invalid status, and counts the `in_progress` items. -/
def validateItems : List RawItem → Nat → Except String (List TodoItem × Nat)
  | [], _ => .ok ([], 0)
  | item :: rest, i =>
    let text := pyStrip item.text
    let status := normStatus item
    let item_id := item.id.getD (toString (i + 1))
    if text = "" then .error ("项 " ++ item_id ++ "：必须填写内容")
    else if ¬ (status = "pending" ∨ status = "in_progress" ∨ status = "completed") then
      .error ("项 " ++ item_id ++ "：无效状态 \x27" ++ status ++ "\x27")
    else
      match validateItems rest (i + 1) with
      | .error e => .error e
      | .ok (v, c) =>
        .ok ({ id := item_id, text := text, status := status } :: v,
          (if status = "in_progress" then 1 else 0) + c)

/-- The status marker of `TodoManager.render` (only validated statuses reach
it). -/
def statusMarker (status : String) : String :=
  if status = "pending" then "[ ]" else if status = "in_progress" then "[>]" else "[x]"

/-- `TodoManager.render` (s03 lines 87-96). -/
def TodoManager.render (items : List TodoItem) : String :=
  if items = [] then "暂无待办。"
  else
    String.intercalate "\n"
      (items.map (fun t => statusMarker t.status ++ " #" ++ t.id ++ ": " ++ t.text) ++
        ["\n（已完成 " ++ toString (items.countP (fun t => t.status == "completed")) ++ "/" ++
          toString items.length ++ " 项）"])

/-- `TodoManager.update` (s03 lines 66-85): length gate, per-item
validation, single-`in_progress` gate; only a fully successful run returns
the new item list (assigned to `self.items`) and the rendered view. -/
def TodoManager.update (items : List RawItem) : Except String (List TodoItem × String) :=
  if items.length > 20 then .error "最多允许 20 个待办"
  else
    match validateItems items 0 with
    | .error e => .error e
    | .ok (validated, cnt) =>
      if cnt > 1 then .error "同一时间只能有一个任务为进行中"
      else .ok (validated, TodoManager.render validated)

/-- The `todo` tool as the s03 loop sees it: the handler reads `kw["items"]`
(a missing argument raises a `KeyError`), the loop's `try/except` turns any
raised error into the textual result, and the stored list changes only on
success. -/
def todoToolStep (prev : List TodoItem) (items : Option (List RawItem)) :
    List TodoItem × String :=
  match items with
  | none => (prev, "错误：\x27items\x27")
  | some its =>
    match TodoManager.update its with
    | .ok (st, rendered) => (st, rendered)
    | .error e => (prev, "错误：" ++ e)

/-- The normalization `update` applies to a fully valid submission. -/
def normalizeItems : List RawItem → Nat → List TodoItem
  | [], _ => []
  | item :: rest, i =>
    { id := item.id.getD (toString (i + 1)), text := pyStrip item.text,
      status := normStatus item } :: normalizeItems rest (i + 1)

/-- Whether a submitted item's normalized status lies in the three-value
enum. -/
def statusValid (it : RawItem) : Prop :=
  normStatus it = "pending" ∨ normStatus it = "in_progress" ∨ normStatus it = "completed"

instance (it : RawItem) : Decidable (statusValid it) := by
  unfold statusValid
  infer_instance

theorem validateItems_error_iff : ∀ (items : List RawItem) (i : Nat),
    ((∃ e, validateItems items i = .error e) ↔
      (∃ it ∈ items, pyStrip it.text = "") ∨ (∃ it ∈ items, ¬ statusValid it)) ∧
    (∀ v c, validateItems items i = .ok (v, c) →
      v = normalizeItems items i ∧
      c = items.countP (fun it => normStatus it == "in_progress")) := by
  intro items
  induction items with
  | nil =>
    intro i
    refine ⟨?_, ?_⟩
    · simp [validateItems]
    · intro v c h
      simp only [validateItems, Except.ok.injEq, Prod.mk.injEq] at h
      obtain ⟨h1, h2⟩ := h
      exact ⟨h1.symm, by simp [normalizeItems, ← h2]⟩
  | cons item rest ih =>
    intro i
    by_cases htext : pyStrip item.text = ""
    · refine ⟨?_, ?_⟩
      · constructor
        · intro _
          exact Or.inl ⟨item, List.mem_cons_self _ _, htext⟩
        · intro _
          refine ⟨"项 " ++ item.id.getD (toString (i + 1)) ++ "：必须填写内容", ?_⟩
          simp [validateItems, htext]
      · intro v c h
        simp [validateItems, htext] at h
    · by_cases hstat : statusValid item
      · have hcond : ¬ ¬ (normStatus item = "pending" ∨ normStatus item = "in_progress" ∨
            normStatus item = "completed") := not_not_intro hstat
        refine ⟨?_, ?_⟩
        · constructor
          · intro ⟨e, he⟩
            simp only [validateItems, if_neg htext, if_neg hcond] at he
            rcases hrec : validateItems rest (i + 1) with e' | p
            · rw [hrec] at he
              have : ∃ e, validateItems rest (i + 1) = .error e := ⟨e', hrec⟩
              rcases ((ih (i + 1)).1.mp this) with ⟨it, hmem, hp⟩ | ⟨it, hmem, hp⟩
              · exact Or.inl ⟨it, List.mem_cons_of_mem _ hmem, hp⟩
              · exact Or.inr ⟨it, List.mem_cons_of_mem _ hmem, hp⟩
            · rw [hrec] at he
              simp at he
          · intro h
            have hrest : (∃ it ∈ rest, pyStrip it.text = "") ∨ (∃ it ∈ rest, ¬ statusValid it) := by
              rcases h with ⟨it, hmem, hp⟩ | ⟨it, hmem, hp⟩
              · rcases List.mem_cons.mp hmem with rfl | hmem'
                · exact absurd hp htext
                · exact Or.inl ⟨it, hmem', hp⟩
              · rcases List.mem_cons.mp hmem with rfl | hmem'
                · exact absurd hstat hp
                · exact Or.inr ⟨it, hmem', hp⟩
            obtain ⟨e, he⟩ := (ih (i + 1)).1.mpr hrest
            refine ⟨e, ?_⟩
            simp only [validateItems, if_neg htext, if_neg hcond, he]
        · intro v c h
          simp only [validateItems, if_neg htext, if_neg hcond] at h
          rcases hrec : validateItems rest (i + 1) with e' | p
          · rw [hrec] at h
            simp at h
          · rw [hrec] at h
            obtain ⟨v', c'⟩ := p
            simp only [Except.ok.injEq, Prod.mk.injEq] at h
            obtain ⟨hv, hc⟩ := h
            obtain ⟨hv', hc'⟩ := (ih (i + 1)).2 v' c' hrec
            constructor
            · rw [← hv, hv']
              rfl
            · rw [← hc, hc', List.countP_cons]
              by_cases hip : normStatus item = "in_progress"
              · simp [hip]
                omega
              · have : (normStatus item == "in_progress") = false := by
                  simpa using hip
                simp [hip, this]
      · refine ⟨?_, ?_⟩
        · constructor
          · intro _
            exact Or.inr ⟨item, List.mem_cons_self _ _, hstat⟩
          · intro _
            refine ⟨"项 " ++ item.id.getD (toString (i + 1)) ++ "：无效状态 \x27" ++
              normStatus item ++ "\x27", ?_⟩
            simp [validateItems, htext, statusValid] at hstat ⊢
            simp [hstat]
        · intro v c h
          have hcond : ¬ (normStatus item = "pending" ∨ normStatus item = "in_progress" ∨
              normStatus item = "completed") := hstat
          simp [validateItems, htext, hcond] at h

/-- C8: the progress-list update is atomic and total.  It fails exactly when
more than 20 items are submitted, or some item has (whitespace-stripped)
empty text, or some item's normalized status lies outside
`{pending, in_progress, completed}`, or more than one item is `in_progress`;
on every failure the loop surfaces the validation error as the tool's own
result text and the previously stored list is left unchanged, and on success
the stored list is wholesale replaced by the normalized submitted items,
with the rendered view returned. -/
theorem C8_todo_update (prev : List TodoItem) (items : List RawItem) :
    ((∃ e, TodoManager.update items = .error e) ↔
      (20 < items.length ∨ (∃ it ∈ items, pyStrip it.text = "") ∨
        (∃ it ∈ items, ¬ statusValid it) ∨
        1 < items.countP (fun it => normStatus it == "in_progress"))) ∧
    (∀ e, TodoManager.update items = .error e →
      todoToolStep prev (some items) = (prev, "错误：" ++ e)) ∧
    (∀ st r, TodoManager.update items = .ok (st, r) →
      st = normalizeItems items 0 ∧ r = TodoManager.render st ∧
      todoToolStep prev (some items) = (st, r)) := by
  have hchar := validateItems_error_iff items 0
  refine ⟨⟨?_, ?_⟩, ?_, ?_⟩
  · rintro ⟨e, he⟩
    unfold TodoManager.update at he
    by_cases hlen : items.length > 20
    · exact Or.inl (by omega)
    · rw [if_neg hlen] at he
      rcases hval : validateItems items 0 with e' | p
      · rcases hchar.1.mp ⟨e', hval⟩ with h | h
        · exact Or.inr (Or.inl h)
        · exact Or.inr (Or.inr (Or.inl h))
      · obtain ⟨v, c⟩ := p
        rw [hval] at he
        have he' : (if c > 1 then
            (Except.error "同一时间只能有一个任务为进行中" : Except String (List TodoItem × String))
          else Except.ok (v, TodoManager.render v)) = Except.error e := he
        by_cases hc : c > 1
        · obtain ⟨_, hc'⟩ := hchar.2 v c hval
          refine Or.inr (Or.inr (Or.inr ?_))
          omega
        · rw [if_neg hc] at he'
          exact absurd he' (by simp)
  · intro h
    unfold TodoManager.update
    by_cases hlen : items.length > 20
    · exact ⟨"最多允许 20 个待办", by rw [if_pos hlen]⟩
    · rw [if_neg hlen]
      rcases hval : validateItems items 0 with e' | p
      · exact ⟨e', rfl⟩
      · obtain ⟨v, c⟩ := p
        obtain ⟨hv, hc⟩ := hchar.2 v c hval
        rcases h with hl | h | h | h
        · omega
        · obtain ⟨e, he⟩ := hchar.1.mpr (Or.inl h)
          rw [hval] at he
          simp at he
        · obtain ⟨e, he⟩ := hchar.1.mpr (Or.inr h)
          rw [hval] at he
          simp at he
        · have hcgt : c > 1 := by omega
          refine ⟨"同一时间只能有一个任务为进行中", ?_⟩
          show (if c > 1 then
              (Except.error "同一时间只能有一个任务为进行中" : Except String (List TodoItem × String))
            else Except.ok (v, TodoManager.render v)) = _
          rw [if_pos hcgt]
  · intro e he
    show (match TodoManager.update items with
      | .ok (st, rendered) => (st, rendered)
      | .error e => (prev, "错误：" ++ e)) = (prev, "错误：" ++ e)
    rw [he]
  · intro st r hok
    unfold TodoManager.update at hok
    by_cases hlen : items.length > 20
    · rw [if_pos hlen] at hok
      simp at hok
    · rw [if_neg hlen] at hok
      rcases hval : validateItems items 0 with e' | p
      · rw [hval] at hok
        exact absurd hok (by simp)
      · obtain ⟨v, c⟩ := p
        rw [hval] at hok
        obtain ⟨hv, hc⟩ := hchar.2 v c hval
        have hok' : (if c > 1 then
            (Except.error "同一时间只能有一个任务为进行中" : Except String (List TodoItem × String))
          else Except.ok (v, TodoManager.render v)) = Except.ok (st, r) := hok
        by_cases hcgt : c > 1
        · rw [if_pos hcgt] at hok'
          exact absurd hok' (by simp)
        · rw [if_neg hcgt] at hok'
          simp only [Except.ok.injEq, Prod.mk.injEq] at hok'
          obtain ⟨hst, hr⟩ := hok'
          refine ⟨by rw [← hst, hv], by rw [← hr, ← hst], ?_⟩
          show (match TodoManager.update items with
            | .ok (st, rendered) => (st, rendered)
            | .error e => (prev, "错误：" ++ e)) = (st, r)
          unfold TodoManager.update
          rw [if_neg hlen, hval]
          show (match (if c > 1 then
              (Except.error "同一时间只能有一个任务为进行中" : Except String (List TodoItem × String))
            else Except.ok (v, TodoManager.render v)) with
            | .ok (st, rendered) => (st, rendered)
            | .error e => (prev, "错误：" ++ e)) = (st, r)
          rw [if_neg hcgt, hr, hst]

/-- The spec's counterexample submission: two items simultaneously
`in_progress`. -/
def demoBadSubmission : List RawItem :=
  [{ id := some "1", text := "build", status := some "in_progress" },
   { id := some "2", text := "test", status := some "in_progress" }]

theorem C8_todo_update_witness :
    todoToolStep [{ id := "0", text := "old", status := "pending" }]
        (some demoBadSubmission) =
      ([{ id := "0", text := "old", status := "pending" }],
        "错误：同一时间只能有一个任务为进行中") :=
  (C8_todo_update [{ id := "0", text := "old", status := "pending" }]
    demoBadSubmission).2.1 "同一时间只能有一个任务为进行中" (by rfl)

/-- Parsed arguments of an s03 tool call: string-valued kwargs for the file
tools and, when present, the structured `items` array for the `todo` tool.
A parse failure degrades to the empty instance (no kwargs, no items). -/
structure S03Args where
  kw : Args := []
  items : Option (List RawItem) := none

/-- Execution of one s03 call against the current todo state (s03 lines
289-307): the registry holds the four file tools plus `todo`; `todo` runs
`TodoManager.update` through the loop's guard via `todoToolStep`; every
other behavior matches the guarded dispatch, with s03's fullwidth-colon
unknown-tool text. -/
def exec03Call (tr : ToolRuns) (a : S03Args) (todoSt : List TodoItem) (tc : ToolCallRec) :
    String × List TodoItem :=
  if tc.name = "todo" then
    let r := todoToolStep todoSt a.items
    (r.2, r.1)
  else
    match TOOL_HANDLERS04 tr tc.name with
    | none => ("未知工具：" ++ tc.name, todoSt)
    | some h =>
      match h a.kw with
      | .ok out => (out, todoSt)
      | .error e => ("错误：" ++ e, todoSt)

/-- The `for tc in tool_calls` loop of the s03 variant, threading the todo
state and appending one tool-role message per call. -/
def execLoop03 (tr : ToolRuns) (parse : String → Option S03Args)
    (tcs : List ToolCallRec) (acc : List Message × List TodoItem) :
    List Message × List TodoItem :=
  tcs.foldl
    (fun acc tc =>
      let a := (parse tc.arguments).getD {}
      let r := exec03Call tr a acc.2 tc
      (acc.1 ++ [toolMsgOf tc r.1], r.2))
    acc

/-- The call/output trace of the s03 execution loop. -/
def exec03Trace (tr : ToolRuns) (parse : String → Option S03Args) :
    List ToolCallRec → List TodoItem → List (ToolCallRec × String) × List TodoItem
  | [], st => ([], st)
  | tc :: rest, st =>
    let a := (parse tc.arguments).getD {}
    let r := exec03Call tr a st tc
    let t := exec03Trace tr parse rest r.2
    ((tc, r.1) :: t.1, t.2)

theorem execLoop03_eq (tr : ToolRuns) (parse : String → Option S03Args) :
    ∀ (tcs : List ToolCallRec) (ms : List Message) (st : List TodoItem),
      execLoop03 tr parse tcs (ms, st) =
        (ms ++ (exec03Trace tr parse tcs st).1.map (fun p => toolMsgOf p.1 p.2),
         (exec03Trace tr parse tcs st).2) := by
  intro tcs
  induction tcs with
  | nil => intro ms st; simp [execLoop03, exec03Trace]
  | cons tc rest ih =>
    intro ms st
    simp only [execLoop03, List.foldl_cons] at *
    rw [ih]
    simp [exec03Trace]

theorem exec03Trace_fst (tr : ToolRuns) (parse : String → Option S03Args) :
    ∀ (tcs : List ToolCallRec) (st : List TodoItem),
      (exec03Trace tr parse tcs st).1.map Prod.fst = tcs := by
  intro tcs
  induction tcs with
  | nil => intro st; rfl
  | cons tc rest ih =>
    intro st
    simp [exec03Trace, ih]

/-- The reminder directive prefixed onto a stale user message. -/
def REMINDER : String := "<reminder>请更新你的待办列表。</reminder>\n"

/-- The reminder-injection guard at the top of the s03 loop (lines 260-263):
when the staleness counter has reached 3 and the most recent message is a
user message whose stripped content does not already start with the
reminder marker, that message's content is prefixed with the directive. -/
def injectReminder (rounds : Nat) (messages : List Message) : List Message :=
  if 3 ≤ rounds then
    match messages.getLast? with
    | some m =>
      if m.role = "user" ∧ pyStartsWith (pyStrip m.content) "<reminder>" = false then
        messages.dropLast ++ [{ m with content := REMINDER ++ m.content }]
      else messages
    | none => messages
  else messages

/-- The s03 system prompt, parametric in the working directory string. -/
def SYSTEM03 (wd : String) : String :=
  "你是工作目录 " ++ wd ++ " 下的编程助手。\n" ++
    "使用 todo 工具规划多步任务：开始前标为 in_progress，完成后标为 completed。\n" ++
    "优先用工具执行，少说多做。"

/-- Result of one iteration of the s03 `agent_loop` body, with the ghost
`request` and `postAppend` fields as in `S06Step`. -/
structure S03Step where
  messages : List Message
  request : List Message
  rounds : Nat
  todoItems : List TodoItem
  postAppend : List Message
  finished : Bool

/-- The response-processing phase of one s03 `agent_loop` iteration (lines
271-312): loop exit on plain text, otherwise the assistant record plus one
tool-role message per call with the todo state threaded through, and the
staleness counter reset to 0 exactly when a `todo` call was among the
batch. -/
def s03_process_response (tr : ToolRuns) (parse : String → Option S03Args)
    (request : List Message) (rounds : Nat) (todoSt : List TodoItem)
    (m0 : List Message) (resp : ModelResponse) : S03Step :=
  if resp.tool_calls.isEmpty then
    { messages := m0 ++ [{ role := "assistant", content := pyStrip resp.content }],
      request := request, rounds := rounds, todoItems := todoSt,
      postAppend := m0 ++ [{ role := "assistant", content := pyStrip resp.content }],
      finished := true }
  else
    { messages := (execLoop03 tr parse resp.tool_calls
        (m0 ++ [assistantRecord resp.content resp.tool_calls], todoSt)).1,
      request := request,
      rounds := if resp.tool_calls.any (fun tc => tc.name == "todo") then 0 else rounds + 1,
      todoItems := (execLoop03 tr parse resp.tool_calls
        (m0 ++ [assistantRecord resp.content resp.tool_calls], todoSt)).2,
      postAppend := (execLoop03 tr parse resp.tool_calls
        (m0 ++ [assistantRecord resp.content resp.tool_calls], todoSt)).1,
      finished := false }

/-- The message list the s03 loop sends to the model: the system prompt
prepended to the store after the reminder-injection guard. -/
def s03_request (wd : String) (rounds : Nat) (messages : List Message) : List Message :=
  { role := "system", content := SYSTEM03 wd } :: injectReminder rounds messages

/-- One iteration of the s03 `agent_loop` (lines 255-312): reminder
injection, model request, then response processing. -/
def s03_agent_step (tr : ToolRuns) (parse : String → Option S03Args)
    (oracle : List Message → ModelResponse) (wd : String)
    (rounds : Nat) (todoSt : List TodoItem) (messages : List Message) : S03Step :=
  s03_process_response tr parse (s03_request wd rounds messages) rounds todoSt
    (injectReminder rounds messages) (oracle (s03_request wd rounds messages))

theorem s03_process_response_proj (tr : ToolRuns) (parse : String → Option S03Args)
    (request : List Message) (rounds : Nat) (todoSt : List TodoItem)
    (m0 : List Message) (resp : ModelResponse) :
    (s03_process_response tr parse request rounds todoSt m0 resp).request = request ∧
    (s03_process_response tr parse request rounds todoSt m0 resp).rounds =
      (if resp.tool_calls.isEmpty then rounds
       else if resp.tool_calls.any (fun tc => tc.name == "todo") then 0 else rounds + 1) ∧
    (s03_process_response tr parse request rounds todoSt m0 resp).postAppend =
      m0 ++ (if resp.tool_calls.isEmpty then
               [{ role := "assistant", content := pyStrip resp.content }]
             else
               assistantRecord resp.content resp.tool_calls ::
                 (exec03Trace tr parse resp.tool_calls todoSt).1.map
                   (fun p => toolMsgOf p.1 p.2)) := by
  unfold s03_process_response
  split <;> rename_i h <;> refine ⟨rfl, ?_, ?_⟩ <;> simp [h, execLoop03_eq]

theorem reminder_strip_startsWith (c : String) :
    pyStartsWith (pyStrip (REMINDER ++ c)) "<reminder>" = true := by
  unfold pyStartsWith pyStrip
  have h1 : (REMINDER ++ c).toList =
      "<reminder>请更新你的待办列表。</reminder>".toList ++ ('\n' :: c.toList) := by
    show (REMINDER ++ c).data = _
    rw [String.data_append]
    have : REMINDER.data =
        "<reminder>请更新你的待办列表。</reminder>".data ++ ['\n'] := by decide
    rw [this, List.append_assoc]
    rfl
  rw [h1]
  have hB : ("<reminder>请更新你的待办列表。</reminder>".toList).dropWhile Char.isWhitespace =
      "<reminder>请更新你的待办列表。</reminder>".toList := by decide
  rw [List.dropWhile_append, hB]
  have hBne : ("<reminder>请更新你的待办列表。</reminder>".toList).isEmpty = false := by decide
  rw [hBne]
  simp only [Bool.false_eq_true, if_false, List.reverse_append]
  rw [List.dropWhile_append]
  have hBrev : ("<reminder>请更新你的待办列表。</reminder>".toList).reverse.dropWhile
      Char.isWhitespace = ("<reminder>请更新你的待办列表。</reminder>".toList).reverse := by
    decide
  rw [hBrev]
  have hpre : "<reminder>".toList <+: "<reminder>请更新你的待办列表。</reminder>".toList :=
    List.isPrefixOf_iff_prefix.mp (by decide)
  by_cases hemp : ((('\n' :: c.toList).reverse).dropWhile Char.isWhitespace).isEmpty
  · rw [hemp]
    simp only [if_true, List.reverse_reverse]
    exact List.isPrefixOf_iff_prefix.mpr hpre
  · have hemp' : ((('\n' :: c.toList).reverse).dropWhile Char.isWhitespace).isEmpty = false := by
      simpa using hemp
    rw [hemp']
    simp only [Bool.false_eq_true, if_false, List.reverse_append, List.reverse_reverse]
    exact List.isPrefixOf_iff_prefix.mpr
      (hpre.trans (List.prefix_append _ _))

theorem injectReminder_none (rounds : Nat) {messages : List Message}
    (h : messages.getLast? = none) : injectReminder rounds messages = messages := by
  unfold injectReminder
  by_cases hr : 3 ≤ rounds
  · rw [if_pos hr, h]
  · rw [if_neg hr]

theorem injectReminder_skip (rounds : Nat) {messages : List Message} {m : Message}
    (h : messages.getLast? = some m)
    (hc : ¬ (m.role = "user" ∧ pyStartsWith (pyStrip m.content) "<reminder>" = false)) :
    injectReminder rounds messages = messages := by
  unfold injectReminder
  by_cases hr : 3 ≤ rounds
  · rw [if_pos hr, h]
    exact if_neg hc
  · rw [if_neg hr]

theorem injectReminder_fire (rounds : Nat) {messages : List Message} {m : Message}
    (hr : 3 ≤ rounds) (h : messages.getLast? = some m)
    (hc : m.role = "user" ∧ pyStartsWith (pyStrip m.content) "<reminder>" = false) :
    injectReminder rounds messages =
      messages.dropLast ++ [{ m with content := REMINDER ++ m.content }] := by
  unfold injectReminder
  rw [if_pos hr, h]
  exact if_pos hc

theorem injectReminder_idem (rounds : Nat) (messages : List Message) :
    injectReminder rounds (injectReminder rounds messages) = injectReminder rounds messages := by
  by_cases hr : 3 ≤ rounds
  · rcases hlast : messages.getLast? with _ | m
    · rw [injectReminder_none rounds hlast, injectReminder_none rounds hlast]
    · by_cases hcond : m.role = "user" ∧ pyStartsWith (pyStrip m.content) "<reminder>" = false
      · rw [injectReminder_fire rounds hr hlast hcond]
        apply injectReminder_skip rounds (m := { m with content := REMINDER ++ m.content })
        · exact List.getLast?_concat _
        · rintro ⟨_, hsw⟩
          rw [reminder_strip_startsWith] at hsw
          exact absurd hsw (by decide)
      · rw [injectReminder_skip rounds hlast hcond, injectReminder_skip rounds hlast hcond]
  · have hid : ∀ ms : List Message, injectReminder rounds ms = ms := by
      intro ms
      unfold injectReminder
      rw [if_neg hr]
    rw [hid, hid]

theorem s03_step_request (tr : ToolRuns) (parse : String → Option S03Args)
    (oracle : List Message → ModelResponse) (wd : String)
    (rounds : Nat) (todoSt : List TodoItem) (messages : List Message) :
    (s03_agent_step tr parse oracle wd rounds todoSt messages).request =
      { role := "system", content := SYSTEM03 wd } :: injectReminder rounds messages :=
  (s03_process_response_proj tr parse (s03_request wd rounds messages) rounds todoSt
    (injectReminder rounds messages) (oracle (s03_request wd rounds messages))).1

theorem s03_step_rounds (tr : ToolRuns) (parse : String → Option S03Args)
    (oracle : List Message → ModelResponse) (wd : String)
    (rounds : Nat) (todoSt : List TodoItem) (messages : List Message) :
    (s03_agent_step tr parse oracle wd rounds todoSt messages).rounds =
      (if (oracle ({ role := "system", content := SYSTEM03 wd } ::
            injectReminder rounds messages)).tool_calls.isEmpty then rounds
       else if (oracle ({ role := "system", content := SYSTEM03 wd } ::
            injectReminder rounds messages)).tool_calls.any (fun tc => tc.name == "todo") then 0
       else rounds + 1) :=
  (s03_process_response_proj tr parse (s03_request wd rounds messages) rounds todoSt
    (injectReminder rounds messages) (oracle (s03_request wd rounds messages))).2.1

theorem s03_step_postAppend (tr : ToolRuns) (parse : String → Option S03Args)
    (oracle : List Message → ModelResponse) (wd : String)
    (rounds : Nat) (todoSt : List TodoItem) (messages : List Message) :
    (s03_agent_step tr parse oracle wd rounds todoSt messages).postAppend =
      injectReminder rounds messages ++
        (if (oracle (s03_request wd rounds messages)).tool_calls.isEmpty then
           [{ role := "assistant",
              content := pyStrip (oracle (s03_request wd rounds messages)).content }]
         else
           assistantRecord (oracle (s03_request wd rounds messages)).content
               (oracle (s03_request wd rounds messages)).tool_calls ::
             (exec03Trace tr parse
               (oracle (s03_request wd rounds messages)).tool_calls todoSt).1.map
               (fun p => toolMsgOf p.1 p.2)) :=
  (s03_process_response_proj tr parse (s03_request wd rounds messages) rounds todoSt
    (injectReminder rounds messages) (oracle (s03_request wd rounds messages))).2.2

/-- C7: in the progress-tracking variant, once the staleness counter has
reached 3, the outgoing user-role message — only when it is the most recent
message in the store and its stripped content does not already carry the
reminder marker — is prefixed with the reminder directive before the model
request; the injection is one-shot (applying the guard again leaves the
store unchanged, since the prefixed content now starts with the marker);
and on a tool round the counter becomes 0 exactly when a `todo` call is
among the batch, and increments to `rounds + 1` otherwise. -/
theorem C7_reminder_staleness (tr : ToolRuns) (parse : String → Option S03Args)
    (oracle : List Message → ModelResponse) (wd : String)
    (rounds : Nat) (todoSt : List TodoItem) (messages : List Message) :
    (∀ m : Message, 3 ≤ rounds → messages.getLast? = some m → m.role = "user" →
      pyStartsWith (pyStrip m.content) "<reminder>" = false →
      (s03_agent_step tr parse oracle wd rounds todoSt messages).request =
        { role := "system", content := SYSTEM03 wd } ::
          (messages.dropLast ++ [{ m with content := REMINDER ++ m.content }])) ∧
    injectReminder rounds (injectReminder rounds messages) = injectReminder rounds messages ∧
    ((oracle ({ role := "system", content := SYSTEM03 wd } ::
        injectReminder rounds messages)).tool_calls.isEmpty = false →
      ((s03_agent_step tr parse oracle wd rounds todoSt messages).rounds = 0 ↔
        (oracle ({ role := "system", content := SYSTEM03 wd } ::
          injectReminder rounds messages)).tool_calls.any (fun tc => tc.name == "todo") = true) ∧
      ((oracle ({ role := "system", content := SYSTEM03 wd } ::
          injectReminder rounds messages)).tool_calls.any (fun tc => tc.name == "todo") = false →
        (s03_agent_step tr parse oracle wd rounds todoSt messages).rounds = rounds + 1)) := by
  refine ⟨?_, injectReminder_idem rounds messages, ?_⟩
  · intro m hr hlast hrole hsw
    rw [s03_step_request, injectReminder_fire rounds hr hlast ⟨hrole, hsw⟩]
  · intro hne
    rw [s03_step_rounds, hne]
    simp only [Bool.false_eq_true, if_false]
    by_cases hany : (oracle ({ role := "system", content := SYSTEM03 wd } ::
        injectReminder rounds messages)).tool_calls.any (fun tc => tc.name == "todo") = true
    · simp [hany]
    · have hany' : (oracle ({ role := "system", content := SYSTEM03 wd } ::
          injectReminder rounds messages)).tool_calls.any (fun tc => tc.name == "todo") = false := by
        simpa using hany
      simp [hany']

/-- A parse oracle for the s03 loop on which every payload is malformed. -/
def noParse03 : String → Option S03Args := fun _ => none

theorem C7_reminder_staleness_witness :
    (s03_agent_step demoRuns noParse03 constOracle "w" 3 []
        [{ role := "user", content := "hi" }]).request =
      { role := "system", content := SYSTEM03 "w" } ::
        [{ role := "user", content := REMINDER ++ "hi" }] :=
  (C7_reminder_staleness demoRuns noParse03 constOracle "w" 3 []
    [{ role := "user", content := "hi" }]).1
    { role := "user", content := "hi" } (by decide) rfl rfl (by decide)


theorem s06_step_postAppend (registry : String → Option Handler) (parse : String → Option Args)
    (oracle : List Message → ModelResponse) (summarize : List Message → String)
    (ts1 ts2 : Nat) (wd : String) (fs : FS) (messages : List Message) :
    (s06_agent_step registry parse oracle summarize ts1 ts2 wd fs messages).postAppend =
      s06_preStore summarize ts1 fs messages ++
        (if (oracle (s06_request summarize ts1 wd fs messages)).tool_calls.isEmpty then
           [{ role := "assistant",
              content := pyStrip (oracle (s06_request summarize ts1 wd fs messages)).content }]
         else
           assistantRecord (oracle (s06_request summarize ts1 wd fs messages)).content
               (oracle (s06_request summarize ts1 wd fs messages)).tool_calls ::
             (oracle (s06_request summarize ts1 wd fs messages)).tool_calls.map
               (fun tc => toolMsgOf tc (exec06Output registry parse tc))) :=
  s06_process_response_postAppend registry parse summarize ts2
    (s06_request summarize ts1 wd fs messages)
    (s06_preFS summarize ts1 fs messages)
    (s06_preStore summarize ts1 fs messages)
    (oracle (s06_request summarize ts1 wd fs messages))
    (decide (THRESHOLD < estimate_tokens (micro_compact messages)))

theorem drop_append_cons {α : Type} (pre : List α) (x : α) (rest : List α) :
    (pre ++ x :: rest).drop (pre.length + 1) = rest := by
  have h : pre ++ x :: rest = (pre ++ [x]) ++ rest := by simp
  rw [h]
  have h2 : (pre ++ [x]).length = pre.length + 1 := by simp
  rw [← h2, List.drop_left]

/-- C3: in both the compaction-variant (s06) and progress-variant (s03)
loops, a model response carrying N ≥ 0 tool calls makes the loop append a
single assistant message recording the calls verbatim, followed by exactly
one tool-role message per call, in response order, and the k-th appended
tool message's `tool_call_id` equals the k-th call's id; a response with no
calls appends only the final assistant text.  All these appends land in the
store before the next model request (the iteration's `postAppend`). -/
theorem C3_tool_result_order (registry : String → Option Handler)
    (parse : String → Option Args) (oracle : List Message → ModelResponse)
    (summarize : List Message → String) (ts1 ts2 : Nat) (wd : String)
    (fs : FS) (messages : List Message)
    (tr : ToolRuns) (parse3 : String → Option S03Args)
    (rounds : Nat) (todoSt : List TodoItem) (messages3 : List Message) :
    (∀ resp, resp = oracle (s06_request summarize ts1 wd fs messages) →
      ((s06_agent_step registry parse oracle summarize ts1 ts2 wd fs messages).postAppend =
        s06_preStore summarize ts1 fs messages ++
          (if resp.tool_calls.isEmpty then
             [{ role := "assistant", content := pyStrip resp.content }]
           else
             assistantRecord resp.content resp.tool_calls ::
               resp.tool_calls.map (fun tc => toolMsgOf tc (exec06Output registry parse tc)))) ∧
      (((s06_agent_step registry parse oracle summarize ts1 ts2 wd fs messages).postAppend.drop
          ((s06_preStore summarize ts1 fs messages).length + 1)).map Message.tool_call_id =
        (if resp.tool_calls.isEmpty then []
         else resp.tool_calls.map (fun tc => some tc.id)))) ∧
    (∀ resp, resp = oracle (s03_request wd rounds messages3) →
      ((s03_agent_step tr parse3 oracle wd rounds todoSt messages3).postAppend =
        injectReminder rounds messages3 ++
          (if resp.tool_calls.isEmpty then
             [{ role := "assistant", content := pyStrip resp.content }]
           else
             assistantRecord resp.content resp.tool_calls ::
               (exec03Trace tr parse3 resp.tool_calls todoSt).1.map
                 (fun p => toolMsgOf p.1 p.2))) ∧
      (((s03_agent_step tr parse3 oracle wd rounds todoSt messages3).postAppend.drop
          ((injectReminder rounds messages3).length + 1)).map Message.tool_call_id =
        (if resp.tool_calls.isEmpty then []
         else resp.tool_calls.map (fun tc => some tc.id)))) := by
  constructor
  · intro resp hresp
    subst hresp
    refine ⟨s06_step_postAppend registry parse oracle summarize ts1 ts2 wd fs messages, ?_⟩
    rw [s06_step_postAppend registry parse oracle summarize ts1 ts2 wd fs messages]
    by_cases h : (oracle (s06_request summarize ts1 wd fs messages)).tool_calls.isEmpty
    · rw [if_pos h, if_pos h, drop_append_cons]
      rfl
    · rw [if_neg h, if_neg h, drop_append_cons, List.map_map]
      rfl
  · intro resp hresp
    subst hresp
    refine ⟨s03_step_postAppend tr parse3 oracle wd rounds todoSt messages3, ?_⟩
    rw [s03_step_postAppend tr parse3 oracle wd rounds todoSt messages3]
    by_cases h : (oracle (s03_request wd rounds messages3)).tool_calls.isEmpty
    · rw [if_pos h, if_pos h, drop_append_cons]
      rfl
    · rw [if_neg h, if_neg h, drop_append_cons, List.map_map]
      conv_rhs => rw [← exec03Trace_fst tr parse3
        (oracle (s03_request wd rounds messages3)).tool_calls todoSt]
      rw [List.map_map]
      rfl

theorem C3_tool_result_order_witness :
    (s06_agent_step (TOOL_HANDLERS06 demoRuns) noParse constOracle constSummary
        0 0 "w" [] []).postAppend =
      s06_preStore constSummary 0 [] [] ++ [{ role := "assistant", content := pyStrip "" }] := by
  have h := ((C3_tool_result_order (TOOL_HANDLERS06 demoRuns) noParse constOracle constSummary
    0 0 "w" [] [] demoRuns noParse03 0 [] []).1
    (constOracle (s06_request constSummary 0 "w" [] [])) rfl).1
  simpa using h

/-- A `pathlib` path value: absoluteness flag plus raw components (a
component may be `..`, `.`, empty, or a name). -/
structure PurePath where
  absolute : Bool
  comps : List String
deriving DecidableEq

/-- Python `base / p`: an absolute right operand replaces the base. -/
def pathJoin (base : PurePath) (p : PurePath) : PurePath :=
  if p.absolute then p else { absolute := base.absolute, comps := base.comps ++ p.comps }

/-- The lexical core of `Path.resolve()` on an absolute path: `.` and empty
components vanish, `..` pops one component and is absorbed at the root
(symlink resolution is a filesystem concern outside this embedding). -/
def resolveComps : List String → List String → List String
  | [], acc => acc.reverse
  | c :: rest, acc =>
    if c = "." ∨ c = "" then resolveComps rest acc
    else if c = ".." then resolveComps rest acc.tail
    else resolveComps rest (c :: acc)

/-- `safe_path` (s06 lines 138-142; the same four lines appear in s02, s03,
s04 and s05): resolve `WORKDIR / p` and raise a path-escape `ValueError`
unless the resolution is still inside the working root.  `wd` is the
resolved component list of the working root. -/
def safe_path (wd : List String) (p : PurePath) : Except String (List String) :=
  if wd.isPrefixOf (resolveComps (pathJoin { absolute := true, comps := wd } p).comps []) then
    .ok (resolveComps (pathJoin { absolute := true, comps := wd } p).comps [])
  else
    .error ("路径超出工作区: " ++ String.intercalate "/" p.comps)

/-- `run_write` (s06 lines 190-197): guard first, then write; the handler's
`try/except` surfaces the path-escape `ValueError` as the result text and
the filesystem is untouched. -/
def run_write (wd : List String) (fs : FS) (p : PurePath) (content : String) : FS × String :=
  match safe_path wd p with
  | .error e => (fs, "错误：" ++ e)
  | .ok q => (fsWrite fs (String.intercalate "/" q) content,
      "已写入 " ++ toString content.length ++ " 字节")

/-- `run_read` (s06 lines 180-187): guard first; the post-guard read,
decode, line-limit and truncation pipeline is the external primitive
`body`, invoked only on an accepted resolved path. -/
def run_read (wd : List String) (body : List String → String) (p : PurePath) : String :=
  match safe_path wd p with
  | .error e => "错误：" ++ e
  | .ok q => body q

/-- `run_edit` (s06 lines 200-209): guard first; the post-guard
read/replace/write pipeline is the external primitive `body`. -/
def run_edit (wd : List String) (body : List String → String) (p : PurePath) : String :=
  match safe_path wd p with
  | .error e => "错误：" ++ e
  | .ok q => body q

/-- C9: every file-path handler (read_file, write_file, edit_file) resolves
the requested path against the fixed working root through the shared
`safe_path` guard; an accepted path always lies inside the root, and a path
whose resolution escapes the root makes the handler fail with the
path-escape error text, with the file operation not performed: the
filesystem is returned unchanged by `run_write`, and `run_read`/`run_edit`
never consult their post-guard body (the result is the same for every
body). -/
theorem C9_path_sandbox (wd : List String) (p : PurePath) (fs : FS) (content : String) :
    (∀ q, safe_path wd p = .ok q → wd.isPrefixOf q = true) ∧
    (wd.isPrefixOf (resolveComps (pathJoin { absolute := true, comps := wd } p).comps []) =
        false →
      safe_path wd p = .error ("路径超出工作区: " ++ String.intercalate "/" p.comps) ∧
      run_write wd fs p content =
        (fs, "错误：" ++ ("路径超出工作区: " ++ String.intercalate "/" p.comps)) ∧
      (∀ body body2 : List String → String,
        run_read wd body p = run_read wd body2 p ∧
        run_read wd body p = "错误：" ++ ("路径超出工作区: " ++ String.intercalate "/" p.comps) ∧
        run_edit wd body p = "错误：" ++ ("路径超出工作区: " ++ String.intercalate "/" p.comps))) := by
  constructor
  · intro q hq
    unfold safe_path at hq
    by_cases h : wd.isPrefixOf (resolveComps (pathJoin { absolute := true, comps := wd } p).comps [])
    · rw [if_pos h] at hq
      simp only [Except.ok.injEq] at hq
      rw [← hq]
      exact h
    · rw [if_neg h] at hq
      exact absurd hq (by simp)
  · intro hesc
    have herr : safe_path wd p =
        .error ("路径超出工作区: " ++ String.intercalate "/" p.comps) := by
      unfold safe_path
      rw [if_neg (by simp [hesc])]
    refine ⟨herr, ?_, ?_⟩
    · unfold run_write
      rw [herr]
    · intro body body2
      unfold run_read run_edit
      rw [herr]
      exact ⟨rfl, rfl, rfl⟩

theorem C9_path_sandbox_witness :
    safe_path ["work"] { absolute := false, comps := ["..", "..", "etc", "passwd"] } =
      .error ("路径超出工作区: " ++ String.intercalate "/" ["..", "..", "etc", "passwd"]) ∧
    run_write ["work"] [] { absolute := false, comps := ["..", "..", "etc", "passwd"] } "x" =
      ([], "错误：" ++ ("路径超出工作区: " ++
        String.intercalate "/" ["..", "..", "etc", "passwd"])) :=
  ⟨((C9_path_sandbox ["work"] { absolute := false, comps := ["..", "..", "etc", "passwd"] }
      [] "x").2 (by decide)).1,
   ((C9_path_sandbox ["work"] { absolute := false, comps := ["..", "..", "etc", "passwd"] }
      [] "x").2 (by decide)).2.1⟩

/-- The s04 parent system prompt, parametric in the working directory. -/
def SYSTEM04 (wd : String) : String :=
  "你是工作目录 " ++ wd ++ " 下的编程代理。使用 task 工具将探索或子任务委派给子代理。"

/-- The s04 child (subagent) system prompt. -/
def SUBAGENT_SYSTEM (wd : String) : String :=
  "你是工作目录 " ++ wd ++ " 下的编程子代理。完成给定任务后，用简短摘要汇报结果。"

/-- The tool names exposed to the child (`CHILD_TOOLS`, s04 lines 126-135):
the four basic tools only. -/
def CHILD_TOOL_NAMES : List String := ["bash", "read_file", "write_file", "edit_file"]

/-- The tool names exposed to the parent (`PARENT_TOOLS`, s04 lines
178-181): the child tools plus the delegation tool. -/
def PARENT_TOOL_NAMES : List String := CHILD_TOOL_NAMES ++ ["task"]

/-- Outcome of a subagent run, with ghost trace fields: the requests sent
to the model and the responses observed, in order. -/
structure SubRun where
  result : Except String String
  requests : List (List Message)
  responses : List ModelResponse

/-- The request the child loop sends: the child system prompt prepended to
the child conversation. -/
def subRequest (wd : String) (ms : List Message) : List Message :=
  { role := "system", content := SUBAGENT_SYSTEM wd } :: ms

/-- The `for _ in range(30)` loop of `run_subagent` (s04 lines 142-173):
each iteration issues one request over the child conversation under the
child system prompt, records the assistant message, and either stops (no
tool calls), executes the calls through the unguarded s04 dispatch
(`Except.error` = a raised handler exception propagating out of
`run_subagent`), or runs out of fuel.  The last argument threads Python's
`last_text`. -/
def runSubLoop (registry : String → Option Handler) (parse : String → Option Args)
    (oracle : List Message → ModelResponse) (wd : String) :
    Nat → List Message → String → SubRun
  | 0, _, lastText =>
    { result := .ok (if lastText = "" then "（无摘要）" else lastText),
      requests := [], responses := [] }
  | fuel + 1, ms, _ =>
    if (oracle (subRequest wd ms)).tool_calls.isEmpty then
      { result := .ok (if pyStrip (oracle (subRequest wd ms)).content = "" then "（无摘要）"
          else pyStrip (oracle (subRequest wd ms)).content),
        requests := [subRequest wd ms], responses := [oracle (subRequest wd ms)] }
    else
      match execCalls04 registry parse (oracle (subRequest wd ms)).tool_calls with
      | .error e =>
        { result := .error e, requests := [subRequest wd ms],
          responses := [oracle (subRequest wd ms)] }
      | .ok toolMsgs =>
        { result := (runSubLoop registry parse oracle wd fuel
            ((ms ++ [assistantRecord (oracle (subRequest wd ms)).content
              (oracle (subRequest wd ms)).tool_calls]) ++ toolMsgs)
            (pyStrip (oracle (subRequest wd ms)).content)).result,
          requests := subRequest wd ms :: (runSubLoop registry parse oracle wd fuel
            ((ms ++ [assistantRecord (oracle (subRequest wd ms)).content
              (oracle (subRequest wd ms)).tool_calls]) ++ toolMsgs)
            (pyStrip (oracle (subRequest wd ms)).content)).requests,
          responses := oracle (subRequest wd ms) :: (runSubLoop registry parse oracle wd fuel
            ((ms ++ [assistantRecord (oracle (subRequest wd ms)).content
              (oracle (subRequest wd ms)).tool_calls]) ++ toolMsgs)
            (pyStrip (oracle (subRequest wd ms)).content)).responses }

/-- `run_subagent` (s04 lines 139-174): a brand-new conversation holding
only the task prompt, driven for at most 30 iterations, returning
`last_text or "（无摘要）"`; only that single string crosses back to the
parent, which appends it (truncated) as the task call's tool result. -/
def run_subagent (registry : String → Option Handler) (parse : String → Option Args)
    (oracle : List Message → ModelResponse) (wd : String) (prompt : String) : SubRun :=
  runSubLoop registry parse oracle wd 30 [{ role := "user", content := prompt }] ""

theorem runSubLoop_requests_le (registry : String → Option Handler)
    (parse : String → Option Args) (oracle : List Message → ModelResponse) (wd : String) :
    ∀ (fuel : Nat) (ms : List Message) (lt : String),
      (runSubLoop registry parse oracle wd fuel ms lt).requests.length ≤ fuel := by
  intro fuel
  induction fuel with
  | zero => intro ms lt; simp [runSubLoop]
  | succ fuel ih =>
    intro ms lt
    unfold runSubLoop
    split
    · simp
    · split
      · simp
      · simp only [List.length_cons]
        exact Nat.succ_le_succ (ih _ _)

theorem runSubLoop_first_request (registry : String → Option Handler)
    (parse : String → Option Args) (oracle : List Message → ModelResponse) (wd : String)
    (fuel : Nat) (ms : List Message) (lt : String) :
    (runSubLoop registry parse oracle wd (fuel + 1) ms lt).requests.head? =
      some (subRequest wd ms) := by
  unfold runSubLoop
  split
  · rfl
  · split <;> rfl

theorem getLast?_cons_of_ne_nil {α : Type} (a : α) {l : List α} (h : l ≠ []) :
    (a :: l).getLast? = l.getLast? := by
  cases l with
  | nil => exact absurd rfl h
  | cons b t => simp [List.getLast?_cons_cons]

theorem runSubLoop_result_ok (registry : String → Option Handler)
    (parse : String → Option Args) (oracle : List Message → ModelResponse) (wd : String) :
    ∀ (fuel : Nat) (ms : List Message) (lt : String) (r : String),
      (runSubLoop registry parse oracle wd fuel ms lt).result = .ok r →
      ((runSubLoop registry parse oracle wd fuel ms lt).responses = [] →
        r = (if lt = "" then "（无摘要）" else lt)) ∧
      (∀ resp, (runSubLoop registry parse oracle wd fuel ms lt).responses.getLast? = some resp →
        r = (if pyStrip resp.content = "" then "（无摘要）" else pyStrip resp.content)) := by
  intro fuel
  induction fuel with
  | zero =>
    intro ms lt r hr
    simp only [runSubLoop, Except.ok.injEq] at hr
    refine ⟨fun _ => hr.symm, ?_⟩
    intro resp hresp
    simp [runSubLoop] at hresp
  | succ fuel ih =>
    intro ms lt r hr
    unfold runSubLoop at hr ⊢
    by_cases hempty : (oracle (subRequest wd ms)).tool_calls.isEmpty
    · rw [if_pos hempty] at hr ⊢
      simp only [Except.ok.injEq] at hr
      refine ⟨fun habs => absurd habs (by simp), ?_⟩
      intro resp hresp
      simp only [List.getLast?_singleton, Option.some_inj] at hresp
      subst hresp
      exact hr.symm
    · rw [if_neg hempty] at hr ⊢
      cases hexec : execCalls04 registry parse (oracle (subRequest wd ms)).tool_calls with
      | error e =>
        rw [hexec] at hr
        exact absurd hr (by simp)
      | ok toolMsgs =>
        rw [hexec] at hr
        have hr2 : (runSubLoop registry parse oracle wd fuel
              ((ms ++ [assistantRecord (oracle (subRequest wd ms)).content
                (oracle (subRequest wd ms)).tool_calls]) ++ toolMsgs)
              (pyStrip (oracle (subRequest wd ms)).content)).result = .ok r := hr
        obtain ⟨h1, h2⟩ := ih ((ms ++ [assistantRecord (oracle (subRequest wd ms)).content
          (oracle (subRequest wd ms)).tool_calls]) ++ toolMsgs)
          (pyStrip (oracle (subRequest wd ms)).content) r hr2
        refine ⟨fun habs => absurd (show oracle (subRequest wd ms) ::
          (runSubLoop registry parse oracle wd fuel
            ((ms ++ [assistantRecord (oracle (subRequest wd ms)).content
              (oracle (subRequest wd ms)).tool_calls]) ++ toolMsgs)
            (pyStrip (oracle (subRequest wd ms)).content)).responses = [] from habs)
          (by simp), ?_⟩
        intro resp hresp
        have hresp2 : (oracle (subRequest wd ms) ::
            (runSubLoop registry parse oracle wd fuel
              ((ms ++ [assistantRecord (oracle (subRequest wd ms)).content
                (oracle (subRequest wd ms)).tool_calls]) ++ toolMsgs)
              (pyStrip (oracle (subRequest wd ms)).content)).responses).getLast? =
            some resp := hresp
        rcases hrest : (runSubLoop registry parse oracle wd fuel
            ((ms ++ [assistantRecord (oracle (subRequest wd ms)).content
              (oracle (subRequest wd ms)).tool_calls]) ++ toolMsgs)
            (pyStrip (oracle (subRequest wd ms)).content)).responses with _ | ⟨x, xs⟩
        · rw [hrest] at hresp2
          simp only [List.getLast?_singleton, Option.some_inj] at hresp2
          subst hresp2
          exact h1 hrest
        · rw [hrest] at hresp2
          rw [getLast?_cons_of_ne_nil _ (by simp)] at hresp2
          rw [← hrest] at hresp2
          exact h2 resp hresp2

theorem runSubLoop_responses_ne_nil (registry : String → Option Handler)
    (parse : String → Option Args) (oracle : List Message → ModelResponse) (wd : String)
    (fuel : Nat) (ms : List Message) (lt : String) :
    (runSubLoop registry parse oracle wd (fuel + 1) ms lt).responses ≠ [] := by
  unfold runSubLoop
  split
  · simp
  · split <;> simp

/-- A model oracle for the C10 scenario: on the first child request (the
child system prompt plus the single seeded user message, two messages) it
answers with assistant text and one bash call; on every later request it
answers with empty text and no calls. -/
def c10Oracle : List Message → ModelResponse :=
  fun req =>
    if req.length ≤ 2 then
      { content := "done", tool_calls := [{ id := "c1", name := "bash", arguments := "x" }] }
    else { content := "", tool_calls := [] }

/-- A parse oracle on which every argument payload parses to a bash
command. -/
def c10Parse : String → Option Args := fun _ => some [("command", "ls")]

/-- C10 counterexample: the claim says the fallback placeholder is returned
only "if no assistant text was ever produced", but `run_subagent` returns
`last_text or "（无摘要）"` where `last_text` is overwritten on every
iteration.  In this run the first iteration produces the assistant text
"done" (alongside a tool call) and the second iteration produces empty
text with no calls, so the loop exits returning the fallback even though
assistant text was produced. -/
theorem C10_run_subagent_counterexample :
    (run_subagent (TOOL_HANDLERS04 demoRuns) c10Parse c10Oracle "w" "task").result =
      .ok "（无摘要）" ∧
    (run_subagent (TOOL_HANDLERS04 demoRuns) c10Parse c10Oracle "w" "task").responses.map
        (fun resp => pyStrip resp.content) = ["done", ""] :=
  ⟨rfl, rfl⟩

/-- C10 (amended): subagent delegation starts the child on a brand-new
conversation whose first request is the child system prompt followed by
the single user message holding the task prompt; the child system prompt
differs from the parent one for every working directory; the child tool
registry and tool list exclude the delegation tool `task` while the parent
list includes it; the child issues at most 30 model requests; and when the
run returns normally, the returned string is the final iteration's
stripped assistant text, or the fixed fallback "（无摘要）" when that
final text is empty — even if an earlier iteration produced nonempty
assistant text. -/
theorem C10_run_subagent_amended (registry : String → Option Handler)
    (parse : String → Option Args) (oracle : List Message → ModelResponse)
    (wd prompt : String) :
    (run_subagent registry parse oracle wd prompt).requests.head? =
      some (subRequest wd [{ role := "user", content := prompt }]) ∧
    (∀ w, SYSTEM04 w ≠ SUBAGENT_SYSTEM w) ∧
    (∀ tr, TOOL_HANDLERS04 tr "task" = none) ∧
    ("task" ∈ PARENT_TOOL_NAMES ∧ "task" ∉ CHILD_TOOL_NAMES) ∧
    (run_subagent registry parse oracle wd prompt).requests.length ≤ 30 ∧
    (∀ r, (run_subagent registry parse oracle wd prompt).result = .ok r →
      ∃ resp,
        (run_subagent registry parse oracle wd prompt).responses.getLast? = some resp ∧
        r = (if pyStrip resp.content = "" then "（无摘要）"
          else pyStrip resp.content)) := by
  refine ⟨?_, ?_, ?_, ⟨by decide, by decide⟩, ?_, ?_⟩
  · exact runSubLoop_first_request registry parse oracle wd 29 _ _
  · intro w h
    have hlen := congrArg String.length h
    simp only [SYSTEM04, SUBAGENT_SYSTEM, String.length_append] at hlen
    have h1 : (" 下的编程代理。使用 task 工具将探索或子任务委派给子代理。" : String).length = 32 := rfl
    have h2 : (" 下的编程子代理。完成给定任务后，用简短摘要汇报结果。" : String).length = 27 := rfl
    rw [h1, h2] at hlen
    omega
  · intro tr
    rfl
  · exact runSubLoop_requests_le registry parse oracle wd 30 _ _
  · intro r hr
    have hne : (run_subagent registry parse oracle wd prompt).responses ≠ [] :=
      runSubLoop_responses_ne_nil registry parse oracle wd 29 _ _
    obtain ⟨resp, hresp⟩ := Option.isSome_iff_exists.mp (by rwa [List.getLast?_isSome])
    exact ⟨resp, hresp,
      (runSubLoop_result_ok registry parse oracle wd 30 _ _ r hr).2 resp hresp⟩

theorem C10_run_subagent_amended_witness :
    ∃ resp,
      (run_subagent (TOOL_HANDLERS04 demoRuns) c10Parse c10Oracle "w" "job").responses.getLast? =
        some resp ∧
      "（无摘要）" = (if pyStrip resp.content = "" then "（无摘要）"
        else pyStrip resp.content) :=
  (C10_run_subagent_amended (TOOL_HANDLERS04 demoRuns) c10Parse c10Oracle
    "w" "job").2.2.2.2.2 "（无摘要）" (by rfl)
